import Mathlib

/-!
Verification development for the `vorothree` Voronoi tessellation library.

The Rust source is shallowly embedded: `f64` values are modelled as exact
rationals (`ℚ`), flat coordinate buffers (`Vec<f64>`) as lists, and the
in-place clipping routines as pure functions returning the updated cell
together with the `(was_modified, max_radius_sq)` pair they report.
`rayon`'s indexed parallel collect is order preserving, so the parallel
per-cell map of `calculate` is embedded as a sequential `List.map` over the
generator indices.  Panics of constructors are modelled with `Option`.
-/

/-- Tolerance constant `1e-9` used by every clipper. -/
def eps : ℚ := 1 / 1000000000

/-- A 3D point or vector (a `[f64; 3]`). -/
structure Vec3 where
  x : ℚ
  y : ℚ
  z : ℚ
deriving DecidableEq, Repr, Inhabited

/-- A 2D point or vector (a `[f64; 2]`). -/
structure Vec2 where
  x : ℚ
  y : ℚ
deriving DecidableEq, Repr, Inhabited

/-- Signed distance `(v − q)·n` of a vertex from the clipping plane
(`cell_faces.rs` line 335). -/
def signedDist (v q n : Vec3) : ℚ :=
  (v.x - q.x) * n.x + (v.y - q.y) * n.y + (v.z - q.z) * n.z

/-- Squared distance between two 3D points. -/
def distSq (v g : Vec3) : ℚ :=
  (v.x - g.x) * (v.x - g.x) + (v.y - g.y) * (v.y - g.y) + (v.z - g.z) * (v.z - g.z)

/-- Signed distance in 2D (`cell/d2.rs` line 121). -/
def signedDist2 (v q n : Vec2) : ℚ :=
  (v.x - q.x) * n.x + (v.y - q.y) * n.y

/-- Squared distance between two 2D points. -/
def dist2Sq (v g : Vec2) : ℚ :=
  (v.x - g.x) * (v.x - g.x) + (v.y - g.y) * (v.y - g.y)

/-- Point on the segment `a → b` at parameter `t`:
`a + t·(b − a)` componentwise, exactly as in the clippers. -/
def lerp3 (a b : Vec3) (t : ℚ) : Vec3 :=
  ⟨a.x + t * (b.x - a.x), a.y + t * (b.y - a.y), a.z + t * (b.z - a.z)⟩

/-- 2D interpolation `a + t·(b − a)`. -/
def lerp2 (a b : Vec2) (t : ℚ) : Vec2 :=
  ⟨a.x + t * (b.x - a.x), a.y + t * (b.y - a.y)⟩

/-- Rust's `f64::clamp(0.0, 1.0)` on an exact rational. -/
def ratClamp01 (t : ℚ) : ℚ :=
  if t < 0 then 0 else if t > 1 then 1 else t

/-- Interpolation parameter used by the 3D clippers:
`(d_s / (d_s - d_e)).clamp(0.0, 1.0)` (`cell_faces.rs` lines 423 and 454,
`cell_edges.rs` line 417). -/
def clipT (d_s d_e : ℚ) : ℚ :=
  ratClamp01 (d_s / (d_s - d_e))

/-- Interpolation parameter used by the 2D polygon clipper:
`d_i / (d_i - d_j)` with no clamping (`cell/d2.rs` lines 166 and 197). -/
def clipT2 (d_i d_j : ℚ) : ℚ :=
  d_i / (d_i - d_j)

/-- Successive cyclic pairs `(l[i], l[(i+1) % n])` of a list, the directed
edges of a face ring. -/
def cyclicPairs {α : Type} [Inhabited α] : List α → List (α × α)
  | [] => []
  | a :: rest => (a :: rest).zip (rest ++ [a])

/-- Axis-aligned domain box (`bounds.rs`). -/
structure BoundingBox where
  min_x : ℚ
  min_y : ℚ
  min_z : ℚ
  max_x : ℚ
  max_y : ℚ
  max_z : ℚ
deriving DecidableEq, Repr, Inhabited

/-- 2D domain box (`bounds/mod.rs`, `BoundingBox<2>` with `min`/`max` arrays). -/
structure BoundingBox2 where
  min0 : ℚ
  min1 : ℚ
  max0 : ℚ
  max1 : ℚ
deriving DecidableEq, Repr, Inhabited

/-- Boundary wall id constants from `bounds.rs`. -/
def BOX_ID_BOTTOM : Int := -1

/-- Boundary id of the top (`z+`) face. -/
def BOX_ID_TOP : Int := -2

/-- Boundary id of the front (`y-`) face. -/
def BOX_ID_FRONT : Int := -3

/-- Boundary id of the back (`y+`) face. -/
def BOX_ID_BACK : Int := -4

/-- Boundary id of the left (`x-`) face. -/
def BOX_ID_LEFT : Int := -5

/-- Boundary id of the right (`x+`) face. -/
def BOX_ID_RIGHT : Int := -6

/-- Bounding box face id from axis and direction (`bounds/mod.rs` line 21):
`-1 - (axis * 2 + if is_max { 1 } else { 0 })`. -/
def boxSide (axis : ℕ) (is_max : Bool) : Int :=
  -1 - ((axis * 2 + (if is_max then 1 else 0) : ℕ) : Int)

/-- 2D polygon cell (`cell/d2.rs`): counter-clockwise vertices and one
neighbor label per edge, `edge_neighbors[i]` labelling the edge from vertex
`i` to vertex `i+1 (mod n)`. -/
structure Cell2D where
  id : ℕ
  vertices : List Vec2
  edge_neighbors : List Int
deriving DecidableEq, Repr, Inhabited

/-- Seed polygon from the 2D domain box (`Cell2D::new`). -/
def Cell2D.new (id : ℕ) (b : BoundingBox2) : Cell2D :=
  { id := id
    vertices :=
      [⟨b.min0, b.min1⟩, ⟨b.max0, b.min1⟩, ⟨b.max0, b.max1⟩, ⟨b.min0, b.max1⟩]
    edge_neighbors :=
      [boxSide 1 false, boxSide 0 true, boxSide 1 true, boxSide 0 false] }

/-- Update of the running max squared radius against the generator, applied
at every vertex push when the generator was supplied. -/
def updMax2 (g : Option Vec2) (m : ℚ) (v : Vec2) : ℚ :=
  match g with
  | none => m
  | some gg => let d2 := dist2Sq v gg; if d2 > m then d2 else m

/-- One edge step of the 2D clip loop (`cell/d2.rs` lines 142-221).  The
accumulator carries the new vertex list, new neighbor list and running max
squared radius; `tf` is the interpolation-parameter function (the source
uses the unclamped `clipT2`). -/
def clip2Edge (c : Cell2D) (ds : List ℚ) (tf : ℚ → ℚ → ℚ) (ℓ : Int) (g : Option Vec2)
    (acc : List Vec2 × List Int × ℚ) (i : ℕ) : List Vec2 × List Int × ℚ :=
  let n := c.vertices.length
  let j := (i + 1) % n
  let d_i := ds.getD i 0
  let d_j := ds.getD j 0
  let neighbor := c.edge_neighbors.getD i 0
  let v_i := c.vertices.getD i default
  let v_j := c.vertices.getD j default
  let vs := acc.1
  let nbs := acc.2.1
  let m := acc.2.2
  if d_i ≤ eps then
    let vs := vs ++ [v_i]
    let m := updMax2 g m v_i
    if d_j ≤ eps then
      (vs, nbs ++ [neighbor], m)
    else
      let t := tf d_i d_j
      let iv := lerp2 v_i v_j t
      (vs ++ [iv], nbs ++ [neighbor] ++ [ℓ], updMax2 g m iv)
  else
    if d_j ≤ eps then
      let t := tf d_i d_j
      let iv := lerp2 v_i v_j t
      (vs ++ [iv], nbs ++ [neighbor], updMax2 g m iv)
    else
      (vs, nbs, m)

/-- Shared body of the 2D clip, parametrized by the interpolation-parameter
function so the source behaviour and the spec wording can be compared. -/
def clip2With (tf : ℚ → ℚ → ℚ) (c : Cell2D) (q n : Vec2) (ℓ : Int) (g : Option Vec2) :
    Cell2D × Bool × ℚ :=
  let num_verts := c.vertices.length
  if num_verts < 3 then (c, false, 0)
  else
    let ds := c.vertices.map (fun v => signedDist2 v q n)
    if ds.all (fun d => d ≤ eps) then (c, false, 0)
    else if ds.all (fun d => -eps ≤ d) then
      ({ c with vertices := [], edge_neighbors := [] }, true, 0)
    else
      let r := (List.range num_verts).foldl (clip2Edge c ds tf ℓ g) ([], [], 0)
      ({ c with vertices := r.1, edge_neighbors := r.2.1 }, true, r.2.2)

/-- The 2D polygon clip exactly as in `cell/d2.rs` `clip_with_scratch`:
the interpolation parameter is the unclamped `clipT2`. -/
def Cell2D.clip (c : Cell2D) (q n : Vec2) (ℓ : Int) (g : Option Vec2) :
    Cell2D × Bool × ℚ :=
  clip2With clipT2 c q n ℓ g

/-- Modelled from the spec: the 2D polygon clip as the specification words
it, with the interpolation parameter `t = d_a / (d_a − d_b)` clamped to
`[0, 1]` before the vertex position is computed.  Used only to compare the
spec's claim against the source behaviour. -/
def Cell2D.clipSpec (c : Cell2D) (q n : Vec2) (ℓ : Int) (g : Option Vec2) :
    Cell2D × Bool × ℚ :=
  clip2With (fun d_i d_j => ratClamp01 (clipT2 d_i d_j)) c q n ℓ g

/-- Face-indexed 3D Voronoi cell (`cell_faces.rs`): flat vertex buffer,
per-face vertex counts, concatenated face-vertex indices and one neighbor
label per face. -/
structure CellFaces where
  id : ℕ
  vertices : List Vec3
  face_counts : List ℕ
  face_indices : List ℕ
  face_neighbors : List Int
deriving DecidableEq, Repr, Inhabited

/-- Seed cell from the domain box (`CellFaces::new`): 8 vertices, 6 quad
faces in the order bottom (`z-`), top (`z+`), front (`y-`), back (`y+`),
left (`x-`), right (`x+`), labelled with the `BOX_ID_*` constants. -/
def CellFaces.new (id : ℕ) (b : BoundingBox) : CellFaces :=
  { id := id
    vertices :=
      [⟨b.min_x, b.min_y, b.min_z⟩, ⟨b.max_x, b.min_y, b.min_z⟩,
       ⟨b.max_x, b.max_y, b.min_z⟩, ⟨b.min_x, b.max_y, b.min_z⟩,
       ⟨b.min_x, b.min_y, b.max_z⟩, ⟨b.max_x, b.min_y, b.max_z⟩,
       ⟨b.max_x, b.max_y, b.max_z⟩, ⟨b.min_x, b.max_y, b.max_z⟩]
    face_counts := [4, 4, 4, 4, 4, 4]
    face_indices :=
      [3, 2, 1, 0,
       4, 5, 6, 7,
       0, 1, 5, 4,
       2, 3, 7, 6,
       0, 4, 7, 3,
       1, 2, 6, 5]
    face_neighbors :=
      [BOX_ID_BOTTOM, BOX_ID_TOP, BOX_ID_FRONT, BOX_ID_BACK, BOX_ID_LEFT,
       BOX_ID_RIGHT] }

/-- Emptiness test of the faces cell (`Cell::is_empty`). -/
def CellFaces.isEmpty (c : CellFaces) : Bool :=
  c.vertices.isEmpty

/-- Maximum squared distance from a center to any vertex
(`CellFaces::max_radius_sq`), accumulated from `0.0`. -/
def CellFaces.maxRadiusSq (c : CellFaces) (g : Vec3) : ℚ :=
  c.vertices.foldl (fun m v => let d2 := distSq v g; if d2 > m then d2 else m) 0

/-- Running max squared radius update when the optional generator was
supplied (the `if let Some(g)` blocks of the clippers). -/
def updMax (g : Option Vec3) (m : ℚ) (v : Vec3) : ℚ :=
  match g with
  | none => m
  | some gg => let d2 := distSq v gg; if d2 > m then d2 else m

/-- Split the flat `face_indices` buffer into one index ring per face using
`face_counts`, mirroring the offset walk of the source. -/
def splitFaces : List ℕ → List ℕ → List (List ℕ)
  | [], _ => []
  | c :: cs, idxs => idxs.take c :: splitFaces cs (idxs.drop c)

/-- Scratch state threaded through the faces clip: new vertex buffer, the
parallel `is_intersection` flags, the per-undirected-edge intersection
dedup map and the running max squared radius. -/
structure FScratch where
  verts : List Vec3
  isInter : List Bool
  imap : List ((ℕ × ℕ) × ℕ)
  maxd : ℚ
deriving DecidableEq, Repr, Inhabited

/-- Pass keeping the inside vertices (`cell_faces.rs` lines 373-390):
builds the old→new index map and pushes kept vertices. -/
def keptPass (g : Option Vec3) (st : FScratch) :
    List (Vec3 × ℚ) → List (Option ℕ) × FScratch
  | [] => ([], st)
  | (v, d) :: rest =>
    if d ≤ eps then
      let idx := st.verts.length
      let st' : FScratch :=
        { verts := st.verts ++ [v], isInter := st.isInter ++ [false],
          imap := st.imap, maxd := updMax g st.maxd v }
      let r := keptPass g st' rest
      (some idx :: r.1, r.2)
    else
      let r := keptPass g st rest
      (none :: r.1, r.2)

/-- Intersection vertex for a crossed edge, deduplicated per undirected
edge key `(min, max)` (`cell_faces.rs` lines 419-445). -/
def getInter (g : Option Vec3) (oldVs : List Vec3) (ds : List ℚ)
    (st : FScratch) (s e : ℕ) : FScratch × ℕ :=
  let key := if s < e then (s, e) else (e, s)
  match st.imap.find? (fun p => p.1 == key) with
  | some p => (st, p.2)
  | none =>
    let d_s := ds.getD s 0
    let d_e := ds.getD e 0
    let t := clipT d_s d_e
    let a := oldVs.getD s default
    let b := oldVs.getD e default
    let v := lerp3 a b t
    let idx := st.verts.length
    ({ verts := st.verts ++ [v], isInter := st.isInter ++ [true],
       imap := st.imap ++ [(key, idx)], maxd := updMax g st.maxd v }, idx)

/-- One directed face edge of the clip walk (`cell_faces.rs` lines 406-480),
accumulating the face ring buffer. -/
def processEdge (g : Option Vec3) (oldVs : List Vec3) (ds : List ℚ)
    (o2n : List (Option ℕ)) (acc : FScratch × List ℕ) (se : ℕ × ℕ) :
    FScratch × List ℕ :=
  let st := acc.1
  let fb := acc.2
  let s := se.1
  let e := se.2
  let d_s := ds.getD s 0
  let d_e := ds.getD e 0
  if d_s ≤ eps then
    if d_e ≤ eps then
      match o2n.getD e none with
      | some idx => (st, fb ++ [idx])
      | none => (st, fb)
    else
      let r := getInter g oldVs ds st s e
      (r.1, fb ++ [r.2])
  else if d_e ≤ eps then
    let r := getInter g oldVs ds st s e
    match o2n.getD e none with
    | some idx2 => (r.1, fb ++ [r.2, idx2])
    | none => (r.1, fb ++ [r.2])
  else (st, fb)

/-- Lid segments contributed by a clipped face ring: every cyclic pair of
consecutive intersection vertices, recorded reversed as `(v, u)`
(`cell_faces.rs` lines 487-493). -/
def lidFromRing (isInter : List Bool) (fb : List ℕ) : List (ℕ × ℕ) :=
  (cyclicPairs fb).filterMap
    (fun uv =>
      if isInter.getD uv.1 false && isInter.getD uv.2 false then
        some (uv.2, uv.1)
      else none)

/-- Accumulator of the per-face clip loop: scratch state plus the new face
buffers and collected lid segments. -/
structure FAcc where
  st : FScratch
  fcounts : List ℕ
  findices : List ℕ
  fneighbors : List Int
  lids : List (ℕ × ℕ)
deriving DecidableEq, Repr, Inhabited

/-- Clip one face: walk its directed edges, keep the ring when it still has
at least 3 vertices and collect its lid segments
(`cell_faces.rs` lines 398-496). -/
def processFace (g : Option Vec3) (oldVs : List Vec3) (ds : List ℚ)
    (o2n : List (Option ℕ)) (acc : FAcc) (fn : List ℕ × Int) : FAcc :=
  let r := (cyclicPairs fn.1).foldl (processEdge g oldVs ds o2n) (acc.st, [])
  let st' := r.1
  let fb := r.2
  if fb.length ≥ 3 then
    { st := st', fcounts := acc.fcounts ++ [fb.length],
      findices := acc.findices ++ fb, fneighbors := acc.fneighbors ++ [fn.2],
      lids := acc.lids ++ lidFromRing st'.isInter fb }
  else
    { acc with st := st' }

/-- Lookup in the sparse `lid_map` array: the segments are written in order
with the last write winning (`cell_faces.rs` lines 503-506). -/
def lidNext (segs : List (ℕ × ℕ)) (u : ℕ) : Option ℕ :=
  (segs.reverse.find? (fun p => p.1 == u)).map (fun p => p.2)

/-- Lid polygon traversal loop (`cell_faces.rs` lines 508-516); the fuel
argument equals `lid_segments.len() + 1 - lid_buffer.len()`, making the
loop guard `lid_buffer.len() <= lid_segments.len()` exact. -/
def lidGo (segs : List (ℕ × ℕ)) (start : ℕ) :
    ℕ → List ℕ → ℕ → List ℕ
  | 0, buf, _ => buf
  | fuel + 1, buf, current =>
    if current = start then buf
    else
      match lidNext segs current with
      | none => buf ++ [current]
      | some v => lidGo segs start fuel (buf ++ [current]) v

/-- Reconstruct the lid polygon from the collected segments
(`cell_faces.rs` lines 499-523). -/
def lidFace (segs : List (ℕ × ℕ)) : List ℕ :=
  match segs with
  | [] => []
  | (start, next) :: _ => lidGo segs start segs.length [start] next

/-- Half-space clip of the faces cell, the pure form of
`CellFaces::clip_with_scratch` (`cell_faces.rs` lines 316-531).  Returns
the clipped cell together with `(was_modified, new_max_radius_sq)`. -/
def CellFaces.clip (c : CellFaces) (q n : Vec3) (ℓ : Int) (g : Option Vec3) :
    CellFaces × Bool × ℚ :=
  let ds := c.vertices.map (fun v => signedDist v q n)
  if ds.all (fun d => d ≤ eps) then (c, false, 0)
  else if ds.all (fun d => -eps ≤ d) then
    ({ c with
        vertices := []
        face_counts := []
        face_indices := []
        face_neighbors := [] }, true, 0)
  else
    let ks :=
      keptPass g { verts := [], isInter := [], imap := [], maxd := 0 }
        (c.vertices.zip ds)
    let faces := (splitFaces c.face_counts c.face_indices).zip c.face_neighbors
    let acc := faces.foldl (processFace g c.vertices ds ks.1)
      { st := ks.2, fcounts := [], findices := [], fneighbors := [], lids := [] }
    let lid := lidFace acc.lids
    let withLid :=
      if acc.lids ≠ [] ∧ lid.length ≥ 3 then
        (acc.fcounts ++ [lid.length], acc.findices ++ lid, acc.fneighbors ++ [ℓ])
      else (acc.fcounts, acc.findices, acc.fneighbors)
    ({ id := c.id, vertices := acc.st.verts, face_counts := withLid.1,
       face_indices := withLid.2.1, face_neighbors := withLid.2.2 },
     true, acc.st.maxd)

/-- Adjacency-graph 3D Voronoi cell (`cell_edges.rs`): per-vertex cyclic
outgoing-edge lists stored flat, with one left-face label per directed
edge. -/
structure CellEdges where
  id : ℕ
  vertices : List Vec3
  edge_buffer : List ℕ
  neighbor_buffer : List Int
  vertex_offsets : List ℕ
  vertex_counts : List ℕ
deriving DecidableEq, Repr, Inhabited

/-- Seed adjacency cell from the domain box (`CellEdges::new`). -/
def CellEdges.new (id : ℕ) (b : BoundingBox) : CellEdges :=
  { id := id
    vertices :=
      [⟨b.min_x, b.min_y, b.min_z⟩, ⟨b.max_x, b.min_y, b.min_z⟩,
       ⟨b.max_x, b.max_y, b.min_z⟩, ⟨b.min_x, b.max_y, b.min_z⟩,
       ⟨b.min_x, b.min_y, b.max_z⟩, ⟨b.max_x, b.min_y, b.max_z⟩,
       ⟨b.max_x, b.max_y, b.max_z⟩, ⟨b.min_x, b.max_y, b.max_z⟩]
    edge_buffer :=
      [1, 4, 3,
       2, 5, 0,
       3, 6, 1,
       0, 7, 2,
       5, 7, 0,
       1, 6, 4,
       2, 7, 5,
       3, 4, 6]
    neighbor_buffer :=
      [BOX_ID_FRONT, BOX_ID_LEFT, BOX_ID_BOTTOM,
       BOX_ID_RIGHT, BOX_ID_FRONT, BOX_ID_BOTTOM,
       BOX_ID_BACK, BOX_ID_RIGHT, BOX_ID_BOTTOM,
       BOX_ID_LEFT, BOX_ID_BACK, BOX_ID_BOTTOM,
       BOX_ID_TOP, BOX_ID_LEFT, BOX_ID_FRONT,
       BOX_ID_RIGHT, BOX_ID_TOP, BOX_ID_FRONT,
       BOX_ID_BACK, BOX_ID_TOP, BOX_ID_RIGHT,
       BOX_ID_LEFT, BOX_ID_TOP, BOX_ID_BACK]
    vertex_offsets := [0, 3, 6, 9, 12, 15, 18, 21]
    vertex_counts := [3, 3, 3, 3, 3, 3, 3, 3] }

/-- Emptiness test of the adjacency cell (`Cell::is_empty`). -/
def CellEdges.isEmpty (c : CellEdges) : Bool :=
  c.vertices.isEmpty

/-- Maximum squared distance from a center to any vertex
(`CellEdges::max_radius_sq`). -/
def CellEdges.maxRadiusSq (c : CellEdges) (g : Vec3) : ℚ :=
  c.vertices.foldl (fun m v => let d2 := distSq v g; if d2 > m then d2 else m) 0

/-- Scratch state of the adjacency clip (`CellEdgesScratch` plus the
running max squared radius). -/
structure EScratch where
  verts : List Vec3
  o2n : List (Option ℕ)
  vOff : List ℕ
  vCnt : List ℕ
  eBuf : List ℕ
  nBuf : List Int
  fcm : List (Int × ℕ × Bool)
  cuts : List (ℕ × ℕ × Int × Int)
  maxd : ℚ
deriving DecidableEq, Repr, Inhabited

/-- Cut creation for one outgoing edge of a kept vertex in pass 1 of the
adjacency clip (`cell_edges.rs` lines 403-459); `new_idx` is the kept
vertex's new index. -/
def edgesPass1Edge (c : CellEdges) (ds : List ℚ) (g : Option Vec3) (i new_idx : ℕ)
    (start count : ℕ) (st : EScratch) (k : ℕ) : EScratch :=
  let neighbor_idx := c.edge_buffer.getD (start + k) 0
  let face_left := c.neighbor_buffer.getD (start + k) 0
  if ds.getD neighbor_idx 0 ≤ eps then st
  else
    let d_s := ds.getD i 0
    let d_e := ds.getD neighbor_idx 0
    let t := clipT d_s d_e
    let a := c.vertices.getD i default
    let b := c.vertices.getD neighbor_idx default
    let p := lerp3 a b t
    let p_idx := st.verts.length
    let st :=
      { st with
          verts := st.verts ++ [p]
          vOff := st.vOff ++ [0]
          vCnt := st.vCnt ++ [0]
          maxd := updMax g st.maxd p }
    let face_right := c.neighbor_buffer.getD (start + (k + count - 1) % count) 0
    let count_left := (st.fcm.filter (fun x => x.1 == face_left)).length
    let count_right := (st.fcm.filter (fun x => x.1 == face_right)).length
    if count_left < 2 && count_right < 2 then
      { st with
          fcm := st.fcm ++ [(face_left, p_idx, true), (face_right, p_idx, false)]
          cuts := st.cuts ++ [(p_idx, new_idx, face_left, face_right)] }
    else st

/-- Pass 1 of the adjacency clip for one old vertex: keep it when inside
and create the boundary vertices of its excised edges
(`cell_edges.rs` lines 381-461). -/
def edgesPass1Vertex (c : CellEdges) (ds : List ℚ) (g : Option Vec3)
    (st : EScratch) (i : ℕ) : EScratch :=
  if ds.getD i 0 ≤ eps then
    let v := c.vertices.getD i default
    let new_idx := st.verts.length
    let st :=
      { st with
          verts := st.verts ++ [v]
          o2n := st.o2n.set i (some new_idx)
          maxd := updMax g st.maxd v
          vOff := st.vOff ++ [st.eBuf.length]
          vCnt := st.vCnt ++ [0] }
    let start := c.vertex_offsets.getD i 0
    let count := c.vertex_counts.getD i 0
    (List.range count).foldl (edgesPass1Edge c ds g i new_idx start count) st
  else st

/-- Pass 2 of the adjacency clip for one old vertex: rebuild the outgoing
list of a kept vertex (`cell_edges.rs` lines 464-497). -/
def edgesPass2Vertex (c : CellEdges) (st : EScratch) (i : ℕ) : EScratch :=
  match st.o2n.getD i none with
  | none => st
  | some new_idx =>
    let st := { st with vOff := st.vOff.set new_idx st.eBuf.length }
    let start := c.vertex_offsets.getD i 0
    let count := c.vertex_counts.getD i 0
    let r :=
      (List.range count).foldl
        (fun (acc : EScratch × ℕ) k =>
          let st := acc.1
          let nc := acc.2
          let neighbor_idx := c.edge_buffer.getD (start + k) 0
          let face_left := c.neighbor_buffer.getD (start + k) 0
          match st.o2n.getD neighbor_idx none with
          | some nn =>
            ({ st with eBuf := st.eBuf ++ [nn], nBuf := st.nBuf ++ [face_left] },
             nc + 1)
          | none =>
            match st.cuts.find?
                (fun q => q.2.1 == new_idx && q.2.2.1 == face_left) with
            | some q =>
              ({ st with eBuf := st.eBuf ++ [q.1], nBuf := st.nBuf ++ [face_left] },
               nc + 1)
            | none => (st, nc))
        (st, 0)
    { r.1 with vCnt := r.1.vCnt.set new_idx r.2 }

/-- Pass 3 of the adjacency clip for one boundary vertex: link it back to
its anchor and to the previous/next boundary vertex, giving the lid label
`ℓ` to exactly one outgoing edge (`cell_edges.rs` lines 501-552). -/
def edgesPass3Cut (ℓ : Int) (st : EScratch) (cut : ℕ × ℕ × Int × Int) : EScratch :=
  let p_idx := cut.1
  let u_idx := cut.2.1
  let f_left := cut.2.2.1
  let f_right := cut.2.2.2
  let st :=
    { st with
        vOff := st.vOff.set p_idx st.eBuf.length
        eBuf := st.eBuf ++ [u_idx]
        nBuf := st.nBuf ++ [f_right] }
  let r1 :=
    match st.fcm.find? (fun x => x.1 == f_right && x.2.1 != p_idx) with
    | some x =>
      (({ st with eBuf := st.eBuf ++ [x.2.1], nBuf := st.nBuf ++ [ℓ] } : EScratch), 2)
    | none => (st, 1)
  let st := r1.1
  let cnt := r1.2
  let r2 :=
    match st.fcm.find? (fun x => x.1 == f_left && x.2.1 != p_idx) with
    | some x =>
      (({ st with eBuf := st.eBuf ++ [x.2.1], nBuf := st.nBuf ++ [f_left] } : EScratch), cnt + 1)
    | none => (st, cnt)
  let st := r2.1
  let cnt := r2.2
  { st with vCnt := st.vCnt.set p_idx cnt }

/-- Half-space clip of the adjacency cell, the pure form of
`CellEdges::clip_with_scratch` (`cell_edges.rs` lines 329-561). -/
def CellEdges.clip (c : CellEdges) (q n : Vec3) (ℓ : Int) (g : Option Vec3) :
    CellEdges × Bool × ℚ :=
  let num_verts := c.vertices.length
  let ds := c.vertices.map (fun v => signedDist v q n)
  if ds.all (fun d => d ≤ eps) then (c, false, 0)
  else if ds.all (fun d => -eps ≤ d) then
    ({ c with
        vertices := []
        edge_buffer := []
        neighbor_buffer := []
        vertex_offsets := []
        vertex_counts := [] }, true, 0)
  else
    let st0 : EScratch :=
      { verts := [], o2n := List.replicate num_verts none, vOff := [], vCnt := [],
        eBuf := [], nBuf := [], fcm := [], cuts := [], maxd := 0 }
    let st1 := (List.range num_verts).foldl (edgesPass1Vertex c ds g) st0
    let st2 := (List.range num_verts).foldl (edgesPass2Vertex c) st1
    let st3 := st2.cuts.foldl (edgesPass3Cut ℓ) st2
    ({ id := c.id, vertices := st3.verts, edge_buffer := st3.eBuf,
       neighbor_buffer := st3.nBuf, vertex_offsets := st3.vOff,
       vertex_counts := st3.vCnt },
     true, st1.maxd)

/-- Maximum wall id of the generic wall module (`wall/mod.rs` line 7). -/
def WALL_ID_MAX : Int := -1000

/-- Maximum wall id used by the constructors in `wall.rs` (line 10). -/
def WALL_ID_START : Int := -10

/-- Geometry of a generic wall (`wall/mod.rs` trait `WallGeometry`):
`contains` tests the valid region, `cut` emits the clipping planes for a
generator through the callback, modelled as the emitted list. -/
structure WallGeomD where
  contains : Vec3 → Bool
  cut : Vec3 → List (Vec3 × Vec3)

/-- Generic wall (`wall/mod.rs` struct `Wall<D>`). -/
structure WallD where
  id : Int
  inner : WallGeomD

/-- Generic wall constructor (`wall/mod.rs` lines 23-31); the panic on
`id > WALL_ID_MAX` is modelled as `none`. -/
def WallD.new (id : Int) (geometry : WallGeomD) : Option WallD :=
  if id > WALL_ID_MAX then none else some ⟨id, geometry⟩

/-- Sphere wall geometry data of `wall.rs` (`SphereGeometry`).  Only
`contains` is modelled; the `cut` tangent-plane computation divides by a
square root and so falls outside the exact rational embedding, and no claim
touches it. -/
structure SphereGeom where
  center : Vec3
  radius : ℚ

/-- Membership test of the sphere wall (`wall.rs` lines 52-57):
squared distance from the center at most `radius²`. -/
def SphereGeom.containsPoint (s : SphereGeom) (p : Vec3) : Bool :=
  distSq p s.center ≤ s.radius * s.radius

/-- Geometry stored in a `wall.rs` `Wall`: either the sphere data or an
opaque caller-supplied geometry. -/
inductive WallRGeom where
  | sphere (s : SphereGeom)
  | custom (contains : Vec3 → Bool)

/-- Wall of the `wall.rs` module. -/
structure WallR where
  id : Int
  inner : WallRGeom

/-- Constructor `Wall::new` of `wall.rs` (lines 269-277): panics, modelled
as `none`, exactly when `id > WALL_ID_START`. -/
def WallR.new (id : Int) (geometry : WallRGeom) : Option WallR :=
  if id > WALL_ID_START then none else some ⟨id, geometry⟩

/-- Constructor `Wall::new_sphere` of `wall.rs` (lines 294-302). -/
def WallR.new_sphere (cx cy cz radius : ℚ) (id : Int) : Option WallR :=
  if id > WALL_ID_START then none else
    some ⟨id, .sphere ⟨⟨cx, cy, cz⟩, radius⟩⟩

/-- Octree spatial index (`algo_octree.rs` struct `AlgorithmOctree`):
leaf points plus optional eight children. -/
inductive Octree where
  | mk (bounds : BoundingBox) (capacity : ℕ) (points : List (ℕ × Vec3))
      (children : Option (List Octree))

/-- Bounds accessor. -/
def Octree.bounds : Octree → BoundingBox
  | .mk b _ _ _ => b

/-- Capacity accessor. -/
def Octree.capacity : Octree → ℕ
  | .mk _ c _ _ => c

/-- Stored points accessor. -/
def Octree.points : Octree → List (ℕ × Vec3)
  | .mk _ _ p _ => p

/-- Children accessor. -/
def Octree.children : Octree → Option (List Octree)
  | .mk _ _ _ ch => ch

/-- Empty octree (`AlgorithmOctree::new`). -/
def Octree.new (bounds : BoundingBox) (capacity : ℕ) : Octree :=
  .mk bounds capacity [] none

/-- Inclusive box membership used by octree insertion
(`algo_octree.rs` lines 102-106). -/
def octContains (b : BoundingBox) (p : Vec3) : Bool :=
  b.min_x ≤ p.x && p.x ≤ b.max_x &&
  (b.min_y ≤ p.y && p.y ≤ b.max_y) &&
  (b.min_z ≤ p.z && p.z ≤ b.max_z)

/-- The eight child boxes created by `subdivide`
(`algo_octree.rs` lines 108-129). -/
def octChildBoxes (b : BoundingBox) : List BoundingBox :=
  let mx := (b.min_x + b.max_x) / 2
  let my := (b.min_y + b.max_y) / 2
  let mz := (b.min_z + b.max_z) / 2
  [⟨b.min_x, b.min_y, b.min_z, mx, my, mz⟩,
   ⟨mx, b.min_y, b.min_z, b.max_x, my, mz⟩,
   ⟨b.min_x, my, b.min_z, mx, b.max_y, mz⟩,
   ⟨mx, my, b.min_z, b.max_x, b.max_y, mz⟩,
   ⟨b.min_x, b.min_y, mz, mx, my, b.max_z⟩,
   ⟨mx, b.min_y, mz, b.max_x, my, b.max_z⟩,
   ⟨b.min_x, my, mz, mx, b.max_y, b.max_z⟩,
   ⟨mx, my, mz, b.max_x, b.max_y, b.max_z⟩]

/-- Try to insert into the children in order, stopping at the first that
accepts; failed attempts keep their (possibly subdivided) state, as the
Rust `&mut` loop does.  `ins` is the insertion at the next fuel level. -/
def insertKidsWith (ins : Octree → ℕ → Vec3 → Octree × Bool) :
    List Octree → ℕ → Vec3 → List Octree × Bool
  | [], _, _ => ([], false)
  | k :: rest, idx, p =>
    let r := ins k idx p
    if r.2 then (r.1 :: rest, true)
    else
      let rr := insertKidsWith ins rest idx p
      (r.1 :: rr.1, rr.2)

/-- Point insertion (`AlgorithmOctree::insert`, lines 46-70).  The Rust
recursion can fail to terminate when more than `capacity` coincident points
are inserted, so the embedding carries explicit fuel; fuel exhaustion
returns the tree unchanged with `false`. -/
def Octree.insert : ℕ → Octree → ℕ → Vec3 → Octree × Bool
  | 0, t, _, _ => (t, false)
  | fuel + 1, .mk b cap pts ch, idx, p =>
    if !(octContains b p) then (.mk b cap pts ch, false)
    else
      match ch with
      | some kids =>
        let r := insertKidsWith (Octree.insert fuel) kids idx p
        (.mk b cap pts (some r.1), r.2)
      | none =>
        if pts.length < cap then (.mk b cap (pts ++ [(idx, p)]) none, true)
        else
          let kids0 := (octChildBoxes b).map (fun cb => Octree.new cb cap)
          let kids1 := pts.foldl
            (fun ks q => (insertKidsWith (Octree.insert fuel) ks q.1 q.2).1) kids0
          let r := insertKidsWith (Octree.insert fuel) kids1 idx p
          (.mk b cap [] (some r.1), r.2)

/-- Clearing the octree (`AlgorithmOctree::clear`). -/
def Octree.octClear (t : Octree) : Octree :=
  .mk t.bounds t.capacity [] none

/-- `SpatialAlgorithm::set_generators` for the octree
(`algo_octree.rs` lines 145-151): clear, then insert every generator. -/
def Octree.setGens (fuel : ℕ) (t : Octree) (gens : List ℚ) : Octree :=
  let count := gens.length / 3
  (List.range count).foldl
    (fun tr i =>
      (Octree.insert fuel tr i
        ⟨gens.getD (i * 3) 0, gens.getD (i * 3 + 1) 0, gens.getD (i * 3 + 2) 0⟩).1)
    (t.octClear)

/-- `SpatialAlgorithm::update_generator` for the octree
(`algo_octree.rs` lines 153-159): the body is empty (a `TODO`), so the
index is left entirely unchanged. -/
def Octree.updateGenerator (t : Octree) (_index : ℕ) (_old_pos _new_pos : Vec3)
    (_bounds : BoundingBox) : Octree :=
  t

/-- Wall as used by the monolithic driver in `tessellation.rs`: an id, the
`contains(x, y, z)` membership test, and `cut(generator, emit)` modelled as
the list of `(point, normal)` planes emitted through the callback. -/
structure Wall3 where
  id : Int
  contains : ℚ → ℚ → ℚ → Bool
  cut : Vec3 → List (Vec3 × Vec3)

/-- Minimum squared distance from the central bin to the bin at the given
offset (`tessellation.rs` `get_min_dist_sq`, lines 442-447). -/
def getMinDistSq (off : Int × Int × Int) (cx cy cz : ℚ) : ℚ :=
  let mx : ℚ := if off.1 > 0 then ((off.1 - 1 : Int) : ℚ) * cx
    else if off.1 < 0 then ((-off.1 - 1 : Int) : ℚ) * cx else 0
  let my : ℚ := if off.2.1 > 0 then ((off.2.1 - 1 : Int) : ℚ) * cy
    else if off.2.1 < 0 then ((-off.2.1 - 1 : Int) : ℚ) * cy else 0
  let mz : ℚ := if off.2.2 > 0 then ((off.2.2 - 1 : Int) : ℚ) * cz
    else if off.2.2 < 0 then ((-off.2.2 - 1 : Int) : ℚ) * cz else 0
  mx * mx + my * my + mz * mz

/-- Consecutive integers `lo, lo+1, …, hi` (the Rust range `lo..=hi`). -/
def rangeInt (lo hi : Int) : List Int :=
  (List.range (hi + 1 - lo).toNat).map (fun k => lo + (k : Int))

/-- Monolithic tessellation driver state (`tessellation.rs` struct
`Tessellation`): domain box, flat generator buffer, cells, walls and the
uniform-grid spatial index. -/
structure Tess where
  bounds : BoundingBox
  generators : List ℚ
  cells : List CellFaces
  walls : List Wall3
  grid_res_x : ℕ
  grid_res_y : ℕ
  grid_res_z : ℕ
  grid_scale_x : ℚ
  grid_scale_y : ℚ
  grid_scale_z : ℚ
  grid_limit_x : ℚ
  grid_limit_y : ℚ
  grid_limit_z : ℚ
  grid_bins : List (List ℕ)
  generator_bin_ids : List ℕ
  bin_search_order : List (Int × Int × Int)

/-- Offset list of the bin search, built by the triple `z`/`y`/`x` loop of
`Tessellation::new` (lines 51-61) and then sorted ascending by
`get_min_dist_sq`; `sort_unstable_by` leaves the order of ties
unspecified, realized here by a merge sort on the same key. -/
def binSearchOrder (nx ny nz : ℕ) (cx cy cz : ℚ) : List (Int × Int × Int) :=
  let rx := (nx : Int)
  let ry := (ny : Int)
  let rz := (nz : Int)
  let offs := (rangeInt (-rz) rz).flatMap (fun z =>
    (rangeInt (-ry) ry).flatMap (fun y =>
      (rangeInt (-rx) rx).map (fun x => (x, y, z))))
  offs.mergeSort (fun a b => getMinDistSq a cx cy cz ≤ getMinDistSq b cx cy cz)

/-- Constructor `Tessellation::new` (lines 41-82). -/
def Tess.new (bounds : BoundingBox) (nx ny nz : ℕ) : Tess :=
  let sx := (nx : ℚ) / (bounds.max_x - bounds.min_x)
  let sy := (ny : ℚ) / (bounds.max_y - bounds.min_y)
  let sz := (nz : ℚ) / (bounds.max_z - bounds.min_z)
  { bounds := bounds
    generators := []
    cells := []
    walls := []
    grid_res_x := nx
    grid_res_y := ny
    grid_res_z := nz
    grid_scale_x := sx
    grid_scale_y := sy
    grid_scale_z := sz
    grid_limit_x := (nx : ℚ) - 1 / 100000
    grid_limit_y := (ny : ℚ) - 1 / 100000
    grid_limit_z := (nz : ℚ) - 1 / 100000
    grid_bins := List.replicate (nx * ny * nz) []
    generator_bin_ids := []
    bin_search_order := binSearchOrder nx ny nz (1 / sx) (1 / sy) (1 / sz) }

/-- Rust's `f64::clamp(lo, hi)`. -/
def ratClamp (v lo hi : ℚ) : ℚ :=
  if v < lo then lo else if v > hi then hi else v

/-- Bin index of a point (`Tessellation::get_bin_index`, lines 362-371);
the `as usize` truncation of the clamped non-negative value is the floor. -/
def Tess.getBinIndex (t : Tess) (x y z : ℚ) : ℕ :=
  let ix := (Rat.floor (ratClamp ((x - t.bounds.min_x) * t.grid_scale_x) 0 t.grid_limit_x)).toNat
  let iy := (Rat.floor (ratClamp ((y - t.bounds.min_y) * t.grid_scale_y) 0 t.grid_limit_y)).toNat
  let iz := (Rat.floor (ratClamp ((z - t.bounds.min_z) * t.grid_scale_z) 0 t.grid_limit_z)).toNat
  ix + iy * t.grid_res_x + iz * t.grid_res_x * t.grid_res_y

/-- Wall filter of the generator intake loops (`set_generators` lines
251-269, `prune_outside_generators` lines 416-434): a triple survives iff
every installed wall contains it; survivors are kept compactly in input
order.  The domain box is not consulted. -/
def filterGens (walls : List Wall3) : List ℚ → List ℚ
  | x :: y :: z :: rest =>
    if walls.all (fun w => w.contains x y z) then
      x :: y :: z :: filterGens walls rest
    else filterGens walls rest
  | _ => []

/-- Binning loop of `set_generators` (lines 282-290): push each surviving
generator index into its bin and record the bin id. -/
def binGens (t : Tess) (gens : List ℚ) (count : ℕ) :
    List (List ℕ) × List ℕ :=
  (List.range count).foldl
    (fun (acc : List (List ℕ) × List ℕ) i =>
      let bins := acc.1
      let ids := acc.2
      let x := gens.getD (i * 3) 0
      let y := gens.getD (i * 3 + 1) 0
      let z := gens.getD (i * 3 + 2) 0
      let bin_idx := t.getBinIndex x y z
      (bins.set bin_idx (bins.getD bin_idx [] ++ [i]), ids.set i bin_idx))
    (List.replicate (t.grid_res_x * t.grid_res_y * t.grid_res_z) [],
     List.replicate count 0)

/-- `Tessellation::set_generators` (lines 247-291): filter through the
walls, replace the generator buffer and rebuild the grid bins. -/
def Tess.setGenerators (t : Tess) (generators : List ℚ) : Tess :=
  let valid := filterGens t.walls generators
  let count := valid.length / 3
  let r := binGens t valid count
  { t with generators := valid, grid_bins := r.1, generator_bin_ids := r.2 }

/-- `Vec::swap_remove`: replace the element at `pos` with the last element
and shorten by one. -/
def swapRemove {α : Type} (l : List α) (pos : ℕ) : List α :=
  match l.getLast? with
  | none => l
  | some last => (l.set pos last).dropLast

/-- `Tessellation::set_generator` (lines 294-322): reject silently when the
flat offset `3·index + 2` is out of range or some wall rejects the target
position; otherwise re-bin if the bin changed and write the three
coordinates. -/
def Tess.setGenerator (t : Tess) (index : ℕ) (x y z : ℚ) : Tess :=
  let offset := index * 3
  if offset + 2 < t.generators.length then
    if t.walls.all (fun w => w.contains x y z) then
      let new_bin_idx := t.getBinIndex x y z
      let old_bin_idx := t.generator_bin_ids.getD index 0
      let t :=
        if new_bin_idx ≠ old_bin_idx then
          let old_bin := t.grid_bins.getD old_bin_idx []
          let bins :=
            match old_bin.findIdx? (fun id => id == index) with
            | some pos => t.grid_bins.set old_bin_idx (swapRemove old_bin pos)
            | none => t.grid_bins
          let bins := bins.set new_bin_idx (bins.getD new_bin_idx [] ++ [index])
          { t with
              grid_bins := bins
              generator_bin_ids := t.generator_bin_ids.set index new_bin_idx }
        else t
      { t with
          generators :=
            ((t.generators.set offset x).set (offset + 1) y).set (offset + 2) z }
    else t
  else t

/-- `Tessellation::prune_outside_generators` (lines 412-439). -/
def Tess.pruneOutsideGenerators (t : Tess) : Tess :=
  let new_generators := filterGens t.walls t.generators
  if new_generators.length ≠ t.generators.length then
    t.setGenerators new_generators
  else t

/-- `Tessellation::add_wall` (lines 84-87): push the wall, then drop the
generators that fall outside the new wall set. -/
def Tess.addWall (t : Tess) (wall : Wall3) : Tess :=
  Tess.pruneOutsideGenerators { t with walls := t.walls ++ [wall] }

/-- `Tessellation::clear_walls` (lines 89-91). -/
def Tess.clearWalls (t : Tess) : Tess :=
  { t with walls := [] }

/-- Accessor `count_generators` (lines 103-106). -/
def Tess.countGenerators (t : Tess) : ℕ :=
  t.generators.length / 3

/-- Accessor `count_cells` (lines 93-96). -/
def Tess.countCells (t : Tess) : ℕ :=
  t.cells.length

/-- The sampled point of one rejection-sampling attempt
(`random_generators` lines 386-389): a uniform unit triple scaled into the
domain box. -/
def attemptPoint (b : BoundingBox) (u : ℚ × ℚ × ℚ) : Vec3 :=
  ⟨b.min_x + u.1 * (b.max_x - b.min_x),
   b.min_y + u.2.1 * (b.max_y - b.min_y),
   b.min_z + u.2.2 * (b.max_z - b.min_z)⟩

/-- Rejection-sampling loop of `random_generators` (lines 385-405).  The
stream `u` abstracts the seeded RNG, giving the unit triple drawn at each
attempt.  The fuel equals `max_attempts - attempts`, making the loop guard
`attempts < max_attempts` exact; the pair returned is the accepted points
and the final attempt count. -/
def randLoop (b : BoundingBox) (walls : List Wall3) (u : ℕ → ℚ × ℚ × ℚ)
    (count : ℕ) : ℕ → ℕ → ℕ → List Vec3 → List Vec3 × ℕ
  | _, attempts, 0, acc => (acc, attempts)
  | found, attempts, fuel + 1, acc =>
    if found < count then
      let p := attemptPoint b (u attempts)
      if walls.all (fun w => w.contains p.x p.y p.z) then
        randLoop b walls u count (found + 1) (attempts + 1) fuel (acc ++ [p])
      else
        randLoop b walls u count found (attempts + 1) fuel acc
    else (acc, attempts)

/-- Flatten points into the `[x, y, z, …]` buffer pushed by the loop. -/
def flattenV3 : List Vec3 → List ℚ
  | [] => []
  | p :: rest => p.x :: p.y :: p.z :: flattenV3 rest

/-- `Tessellation::random_generators` (lines 373-408): rejection sampling
bounded by `1000·count` attempts, then `set_generators` on the accepted
points. -/
def Tess.randomGenerators (t : Tess) (count : ℕ) (u : ℕ → ℚ × ℚ × ℚ) : Tess :=
  let res := randLoop t.bounds t.walls u count 0 0 (count * 1000) []
  t.setGenerators (flattenV3 res.1)

/-- Apply the planes a wall emits for a generator, clipping with the wall's
id and no generator-radius tracking (`calculate` lines 133-137). -/
def wallCuts (g : Vec3) (cell : CellFaces) (w : Wall3) : CellFaces :=
  (w.cut g).foldl (fun c pn => (CellFaces.clip c pn.1 pn.2 w.id none).1) cell

/-- One clip of the neighbor loop together with the radius update
discipline (`calculate` lines 202-204): the cell is replaced by the clip
result and `current_max_dist_sq` becomes the returned radius exactly when
the clip reported a modification. -/
def clipUpdate (acc : CellFaces × ℚ) (q n : Vec3) (j : Int) (g : Vec3) :
    CellFaces × ℚ :=
  let res := CellFaces.clip acc.1 q n j (some g)
  (res.1, if res.2.1 then res.2.2 else acc.2)

/-- Candidate visit inside a bin (`calculate` lines 192-205): skip self,
skip candidates beyond the `4·r²` diameter test, otherwise clip by the
bisector of the generator and the candidate. -/
def clipStep (i : ℕ) (g : Vec3) (gens : List ℚ) (acc : CellFaces × ℚ) (j : ℕ) :
    CellFaces × ℚ :=
  if j = i then acc
  else
    let ox := gens.getD (j * 3) 0
    let oy := gens.getD (j * 3 + 1) 0
    let oz := gens.getD (j * 3 + 2) 0
    let dx := ox - g.x
    let dy := oy - g.y
    let dz := oz - g.z
    let dist_sq := dx * dx + dy * dy + dz * dz
    if dist_sq > 4 * acc.2 then acc
    else
      clipUpdate acc ⟨g.x + dx / 2, g.y + dy / 2, g.z + dz / 2⟩ ⟨dx, dy, dz⟩
        (j : Int) g

/-- The `process_bin` closure of `calculate` (lines 157-210): bounds check
the offset bin, test its tightened distance against `4·r²`, and if in
range visit every generator stored in it. -/
def processBin (t : Tess) (i : ℕ) (g : Vec3) (idx : ℕ × ℕ × ℕ)
    (rel : ℚ × ℚ × ℚ) (cs : ℚ × ℚ × ℚ) (off : Int × Int × Int)
    (acc : CellFaces × ℚ) : CellFaces × ℚ :=
  let bx := (idx.1 : Int) + off.1
  let by' := (idx.2.1 : Int) + off.2.1
  let bz := (idx.2.2 : Int) + off.2.2
  if 0 ≤ bx && bx < (t.grid_res_x : Int) && (0 ≤ by' && by' < (t.grid_res_y : Int))
      && (0 ≤ bz && bz < (t.grid_res_z : Int)) then
    let dx_dist : ℚ := if off.1 > 0 then ((off.1 : ℚ) - rel.1) * cs.1
      else if off.1 < 0 then (((-(off.1 + 1) : Int) : ℚ) + rel.1) * cs.1 else 0
    let dy_dist : ℚ := if off.2.1 > 0 then ((off.2.1 : ℚ) - rel.2.1) * cs.2.1
      else if off.2.1 < 0 then (((-(off.2.1 + 1) : Int) : ℚ) + rel.2.1) * cs.2.1 else 0
    let dz_dist : ℚ := if off.2.2 > 0 then ((off.2.2 : ℚ) - rel.2.2) * cs.2.2
      else if off.2.2 < 0 then (((-(off.2.2 + 1) : Int) : ℚ) + rel.2.2) * cs.2.2 else 0
    let dxb := max dx_dist 0
    let dyb := max dy_dist 0
    let dzb := max dz_dist 0
    if dxb * dxb + dyb * dyb + dzb * dzb ≤ 4 * acc.2 then
      let bin_index := bx.toNat + by'.toNat * t.grid_res_x
        + bz.toNat * t.grid_res_x * t.grid_res_y
      (t.grid_bins.getD bin_index []).foldl (clipStep i g t.generators) acc
    else acc
  else acc

/-- The bin visit loop of `calculate` (lines 213-219): walk the pre-sorted
offsets, breaking outright at the first offset whose minimum bin distance
exceeds `4·r²`. -/
def neighborLoop (pb : (Int × Int × Int) → (CellFaces × ℚ) → CellFaces × ℚ)
    (mind : (Int × Int × Int) → ℚ) :
    List (Int × Int × Int) → (CellFaces × ℚ) → CellFaces × ℚ
  | [], acc => acc
  | off :: rest, acc =>
    if mind off > 4 * acc.2 then acc
    else neighborLoop pb mind rest (pb off acc)

/-- The per-cell kernel of `calculate` (lines 124-220): seed from the box,
cut by every wall, then visit candidate neighbors through the grid with
the shrinking-radius discipline. -/
def computeCell (t : Tess) (i : ℕ) : CellFaces :=
  let g : Vec3 :=
    ⟨t.generators.getD (i * 3) 0, t.generators.getD (i * 3 + 1) 0,
     t.generators.getD (i * 3 + 2) 0⟩
  let cell0 := CellFaces.new i t.bounds
  let cell1 := t.walls.foldl (wallCuts g) cell0
  let bin_idx := t.generator_bin_ids.getD i 0
  let idx_z := bin_idx / (t.grid_res_x * t.grid_res_y)
  let rem_z := bin_idx % (t.grid_res_x * t.grid_res_y)
  let idx_y := rem_z / t.grid_res_x
  let idx_x := rem_z % t.grid_res_x
  let rel_x := (g.x - t.bounds.min_x) * t.grid_scale_x - (idx_x : ℚ)
  let rel_y := (g.y - t.bounds.min_y) * t.grid_scale_y - (idx_y : ℚ)
  let rel_z := (g.z - t.bounds.min_z) * t.grid_scale_z - (idx_z : ℚ)
  let r2 := cell1.maxRadiusSq g
  let csx := 1 / t.grid_scale_x
  let csy := 1 / t.grid_scale_y
  let csz := 1 / t.grid_scale_z
  (neighborLoop
    (processBin t i g (idx_x, idx_y, idx_z) (rel_x, rel_y, rel_z) (csx, csy, csz))
    (fun off => getMinDistSq off csx csy csz)
    t.bin_search_order (cell1, r2)).1

/-- `Tessellation::calculate` (lines 109-222): one cell per generator
index; the parallel indexed collect preserves positions, embedded as a
sequential map over `0..count`. -/
def Tess.calculate (t : Tess) : Tess :=
  { t with cells := (List.range (t.generators.length / 3)).map (computeCell t) }

/-- `Tessellation::relax` (lines 226-243) replaces each generator by its
cell centroid unless the cell is empty; only its generator-counting guard
is relevant to the claims, so the centroid computation is not needed
here. -/
def Tess.relaxGuard (t : Tess) : Bool :=
  t.cells.length == t.generators.length / 3

/-! Helper lemmas about the clip entry branches. -/

lemma all_dists_true {vs : List Vec3} {q n : Vec3}
    (h : ∀ v ∈ vs, signedDist v q n ≤ eps) :
    ((vs.map fun v => signedDist v q n).all fun d => d ≤ eps) = true := by
  rw [List.all_eq_true]
  intro d hd
  rw [List.mem_map] at hd
  obtain ⟨v, hv, rfl⟩ := hd
  exact decide_eq_true (h v hv)

lemma all_dists_false {vs : List Vec3} {q n : Vec3}
    (h : ¬ ∀ v ∈ vs, signedDist v q n ≤ eps) :
    ((vs.map fun v => signedDist v q n).all fun d => d ≤ eps) = false := by
  rw [Bool.eq_false_iff]
  intro hc
  rw [List.all_eq_true] at hc
  refine h (fun v hv => ?_)
  have := hc (signedDist v q n) (List.mem_map.mpr ⟨v, hv, rfl⟩)
  exact of_decide_eq_true this

lemma all_dists_ge_true {vs : List Vec3} {q n : Vec3}
    (h : ∀ v ∈ vs, -eps ≤ signedDist v q n) :
    ((vs.map fun v => signedDist v q n).all fun d => -eps ≤ d) = true := by
  rw [List.all_eq_true]
  intro d hd
  rw [List.mem_map] at hd
  obtain ⟨v, hv, rfl⟩ := hd
  exact decide_eq_true (h v hv)

lemma cfClip_noop {c : CellFaces} {q n : Vec3} (ℓ : Int) (g : Option Vec3)
    (h : ∀ v ∈ c.vertices, signedDist v q n ≤ eps) :
    CellFaces.clip c q n ℓ g = (c, false, 0) := by
  simp only [CellFaces.clip, all_dists_true h, if_true]

lemma cfClip_clears {c : CellFaces} {q n : Vec3} (ℓ : Int) (g : Option Vec3)
    (hge : ∀ v ∈ c.vertices, -eps ≤ signedDist v q n)
    (hne : ¬ ∀ v ∈ c.vertices, signedDist v q n ≤ eps) :
    CellFaces.clip c q n ℓ g =
      ({ id := c.id, vertices := [], face_counts := [], face_indices := [],
         face_neighbors := [] }, true, 0) := by
  simp only [CellFaces.clip, all_dists_false hne, all_dists_ge_true hge,
    Bool.false_eq_true, if_false, if_true]

lemma ceClip_noop {c : CellEdges} {q n : Vec3} (ℓ : Int) (g : Option Vec3)
    (h : ∀ v ∈ c.vertices, signedDist v q n ≤ eps) :
    CellEdges.clip c q n ℓ g = (c, false, 0) := by
  simp only [CellEdges.clip, all_dists_true h, if_true]

lemma ceClip_clears {c : CellEdges} {q n : Vec3} (ℓ : Int) (g : Option Vec3)
    (hge : ∀ v ∈ c.vertices, -eps ≤ signedDist v q n)
    (hne : ¬ ∀ v ∈ c.vertices, signedDist v q n ≤ eps) :
    CellEdges.clip c q n ℓ g =
      ({ id := c.id, vertices := [], edge_buffer := [], neighbor_buffer := [],
         vertex_offsets := [], vertex_counts := [] }, true, 0) := by
  simp only [CellEdges.clip, all_dists_false hne, all_dists_ge_true hge,
    Bool.false_eq_true, if_false, if_true]

/-- C2: for both cell variants, a clipping plane with every vertex at
signed distance `d ≤ ε` is a no-op returning `was_modified = false` (in
particular a plane coincident with all vertices within `ε`), while a plane
with every vertex at `d ≥ −ε` and at least one vertex strictly beyond `ε`
empties the cell — all vertex, face and neighbor data cleared, `is_empty`
true — and returns `was_modified = true`.  The source tests the all-inside
branch first, which is why the wholly-degenerate coincident plane resolves
to the no-op. -/
theorem C2_clip_halfspace_noop_or_clear (cf : CellFaces) (ce : CellEdges)
    (q n : Vec3) (ℓ : Int) (g g' : Option Vec3) :
    ((∀ v ∈ cf.vertices, signedDist v q n ≤ eps) →
      CellFaces.clip cf q n ℓ g = (cf, false, 0)) ∧
    ((∀ v ∈ cf.vertices, -eps ≤ signedDist v q n) →
      (¬ ∀ v ∈ cf.vertices, signedDist v q n ≤ eps) →
      CellFaces.clip cf q n ℓ g =
        ({ id := cf.id, vertices := [], face_counts := [], face_indices := [],
           face_neighbors := [] }, true, 0) ∧
      (CellFaces.clip cf q n ℓ g).1.isEmpty = true) ∧
    ((∀ v ∈ ce.vertices, signedDist v q n ≤ eps) →
      CellEdges.clip ce q n ℓ g' = (ce, false, 0)) ∧
    ((∀ v ∈ ce.vertices, -eps ≤ signedDist v q n) →
      (¬ ∀ v ∈ ce.vertices, signedDist v q n ≤ eps) →
      CellEdges.clip ce q n ℓ g' =
        ({ id := ce.id, vertices := [], edge_buffer := [], neighbor_buffer := [],
           vertex_offsets := [], vertex_counts := [] }, true, 0) ∧
      (CellEdges.clip ce q n ℓ g').1.isEmpty = true) := by
  refine ⟨fun h => cfClip_noop ℓ g h, fun hge hne => ?_,
    fun h => ceClip_noop ℓ g' h, fun hge hne => ?_⟩
  · refine ⟨cfClip_clears ℓ g hge hne, ?_⟩
    rw [cfClip_clears ℓ g hge hne]
    rfl
  · refine ⟨ceClip_clears ℓ g' hge hne, ?_⟩
    rw [ceClip_clears ℓ g' hge hne]
    rfl

/-- Concrete unit box used by the witnesses. -/
def uboxW : BoundingBox := ⟨0, 0, 0, 1, 1, 1⟩

/-- Witness for C2: the unit-box seed cells, a plane at `x = 2` (all
vertices inside) and a plane at `x = −1` (all vertices outside). -/
theorem C2_clip_halfspace_noop_or_clear_witness :
    ((∀ v ∈ (CellFaces.new 0 uboxW).vertices,
        signedDist v ⟨2, 0, 0⟩ ⟨1, 0, 0⟩ ≤ eps) ∧
      CellFaces.clip (CellFaces.new 0 uboxW) ⟨2, 0, 0⟩ ⟨1, 0, 0⟩ 7 none =
        (CellFaces.new 0 uboxW, false, 0)) ∧
    ((∀ v ∈ (CellFaces.new 0 uboxW).vertices,
        -eps ≤ signedDist v ⟨-1, 0, 0⟩ ⟨1, 0, 0⟩) ∧
      (¬ ∀ v ∈ (CellFaces.new 0 uboxW).vertices,
        signedDist v ⟨-1, 0, 0⟩ ⟨1, 0, 0⟩ ≤ eps) ∧
      (CellFaces.clip (CellFaces.new 0 uboxW) ⟨-1, 0, 0⟩ ⟨1, 0, 0⟩ 7 none).1.isEmpty
        = true) ∧
    ((∀ v ∈ (CellEdges.new 0 uboxW).vertices,
        signedDist v ⟨2, 0, 0⟩ ⟨1, 0, 0⟩ ≤ eps) ∧
      CellEdges.clip (CellEdges.new 0 uboxW) ⟨2, 0, 0⟩ ⟨1, 0, 0⟩ 7 none =
        (CellEdges.new 0 uboxW, false, 0)) ∧
    ((∀ v ∈ (CellEdges.new 0 uboxW).vertices,
        -eps ≤ signedDist v ⟨-1, 0, 0⟩ ⟨1, 0, 0⟩) ∧
      (CellEdges.clip (CellEdges.new 0 uboxW) ⟨-1, 0, 0⟩ ⟨1, 0, 0⟩ 7 none).1.isEmpty
        = true) := by
  have hfin : ∀ v ∈ (CellFaces.new 0 uboxW).vertices,
      signedDist v ⟨2, 0, 0⟩ ⟨1, 0, 0⟩ ≤ eps := by
    intro v hv
    fin_cases hv <;> norm_num [signedDist, eps, uboxW]
  have hfge : ∀ v ∈ (CellFaces.new 0 uboxW).vertices,
      -eps ≤ signedDist v ⟨-1, 0, 0⟩ ⟨1, 0, 0⟩ := by
    intro v hv
    fin_cases hv <;> norm_num [signedDist, eps, uboxW]
  have hfne : ¬ ∀ v ∈ (CellFaces.new 0 uboxW).vertices,
      signedDist v ⟨-1, 0, 0⟩ ⟨1, 0, 0⟩ ≤ eps := by
    intro hall
    have := hall ⟨1, 0, 0⟩ (by norm_num [CellFaces.new, uboxW])
    norm_num [signedDist, eps, uboxW] at this
  have hein : ∀ v ∈ (CellEdges.new 0 uboxW).vertices,
      signedDist v ⟨2, 0, 0⟩ ⟨1, 0, 0⟩ ≤ eps := by
    intro v hv
    fin_cases hv <;> norm_num [signedDist, eps, uboxW]
  have hege : ∀ v ∈ (CellEdges.new 0 uboxW).vertices,
      -eps ≤ signedDist v ⟨-1, 0, 0⟩ ⟨1, 0, 0⟩ := by
    intro v hv
    fin_cases hv <;> norm_num [signedDist, eps, uboxW]
  have hene : ¬ ∀ v ∈ (CellEdges.new 0 uboxW).vertices,
      signedDist v ⟨-1, 0, 0⟩ ⟨1, 0, 0⟩ ≤ eps := by
    intro hall
    have := hall ⟨1, 0, 0⟩ (by norm_num [CellEdges.new, uboxW])
    norm_num [signedDist, eps, uboxW] at this
  exact ⟨⟨hfin,
      (C2_clip_halfspace_noop_or_clear (CellFaces.new 0 uboxW)
        (CellEdges.new 0 uboxW) ⟨2, 0, 0⟩ ⟨1, 0, 0⟩ 7 none none).1 hfin⟩,
    ⟨hfge, hfne,
      ((C2_clip_halfspace_noop_or_clear (CellFaces.new 0 uboxW)
        (CellEdges.new 0 uboxW) ⟨-1, 0, 0⟩ ⟨1, 0, 0⟩ 7 none none).2.1 hfge hfne).2⟩,
    ⟨hein,
      (C2_clip_halfspace_noop_or_clear (CellFaces.new 0 uboxW)
        (CellEdges.new 0 uboxW) ⟨2, 0, 0⟩ ⟨1, 0, 0⟩ 7 none none).2.2.1 hein⟩,
    ⟨hege,
      ((C2_clip_halfspace_noop_or_clear (CellFaces.new 0 uboxW)
        (CellEdges.new 0 uboxW) ⟨-1, 0, 0⟩ ⟨1, 0, 0⟩ 7 none none).2.2.2 hege hene).2⟩⟩

/-- C5 (counterexample): the claim says every wall constructor panics
exactly when `id > −1000`; but `Wall::new` in `wall.rs` accepts `id = −100`
(its threshold is `WALL_ID_START = −10`), even though `−100 > −1000`. -/
theorem C5_wall_id_cx :
    (-100 : Int) > WALL_ID_MAX ∧
    (WallR.new (-100) (.custom fun _ => true)).isSome = true := by
  constructor
  · decide
  · rfl

/-- C5 (amended): construction fails exactly above the module's own
threshold — `WALL_ID_MAX = −1000` for the generic `Wall<D>::new`, but
`WALL_ID_START = −10` for the constructors in `wall.rs` — and on success
the wall's `id()` accessor returns exactly the given id. -/
theorem C5_wall_id_thresholds (id : Int) (gD : WallGeomD) (gR : WallRGeom)
    (cx cy cz r : ℚ) :
    (id > WALL_ID_MAX → WallD.new id gD = none) ∧
    (id ≤ WALL_ID_MAX → (WallD.new id gD).map WallD.id = some id) ∧
    (id > WALL_ID_START → WallR.new id gR = none) ∧
    (id ≤ WALL_ID_START → (WallR.new id gR).map WallR.id = some id) ∧
    (id > WALL_ID_START → WallR.new_sphere cx cy cz r id = none) ∧
    (id ≤ WALL_ID_START → (WallR.new_sphere cx cy cz r id).map WallR.id = some id) := by
  refine ⟨fun h => ?_, fun h => ?_, fun h => ?_, fun h => ?_, fun h => ?_, fun h => ?_⟩
  · simp [WallD.new, h]
  · simp [WallD.new, not_lt.mpr h, WallD.id]
  · simp [WallR.new, h]
  · simp [WallR.new, not_lt.mpr h, WallR.id]
  · simp [WallR.new_sphere, h]
  · simp [WallR.new_sphere, not_lt.mpr h, WallR.id]

/-- Witness for C5: `id = −2000` is accepted by every constructor with its
id preserved, and `id = −5` is rejected by every constructor. -/
theorem C5_wall_id_thresholds_witness :
    ((-2000 : Int) ≤ WALL_ID_MAX ∧
      (WallD.new (-2000) ⟨fun _ => true, fun _ => []⟩).map WallD.id = some (-2000)) ∧
    ((-2000 : Int) ≤ WALL_ID_START ∧
      (WallR.new_sphere 0 0 0 1 (-2000)).map WallR.id = some (-2000)) ∧
    ((-5 : Int) > WALL_ID_MAX ∧ WallD.new (-5) ⟨fun _ => true, fun _ => []⟩ = none) ∧
    ((-5 : Int) > WALL_ID_START ∧ WallR.new (-5) (.custom fun _ => true) = none) := by
  refine ⟨⟨by decide, ?_⟩, ⟨by decide, ?_⟩, ⟨by decide, ?_⟩, ⟨by decide, ?_⟩⟩
  · exact (C5_wall_id_thresholds (-2000) ⟨fun _ => true, fun _ => []⟩
      (.custom fun _ => true) 0 0 0 1).2.1 (by decide)
  · exact (C5_wall_id_thresholds (-2000) ⟨fun _ => true, fun _ => []⟩
      (.custom fun _ => true) 0 0 0 1).2.2.2.2.2 (by decide)
  · exact (C5_wall_id_thresholds (-5) ⟨fun _ => true, fun _ => []⟩
      (.custom fun _ => true) 0 0 0 1).1 (by decide)
  · exact (C5_wall_id_thresholds (-5) ⟨fun _ => true, fun _ => []⟩
      (.custom fun _ => true) 0 0 0 1).2.2.1 (by decide)

/-- Index ring of face `k` of a faces cell. -/
def faceRing (c : CellFaces) (k : ℕ) : List ℕ :=
  (splitFaces c.face_counts c.face_indices).getD k []

/-- Vertex of a faces cell by index. -/
def vtx (c : CellFaces) (j : ℕ) : Vec3 :=
  c.vertices.getD j default

/-- C6 (counterexample): in the 3D seed cell the face perpendicular to the
`x` axis on the min side — face 4, whose ring `[0, 4, 7, 3]` consists of
exactly the vertices with `x = min_x` — carries the label `−5`, not
`box_side(0, false) = −1` as the claim requires. -/
theorem C6_box_side_cx :
    boxSide 0 false = -1 ∧
    faceRing (CellFaces.new 0 uboxW) 4 = [0, 4, 7, 3] ∧
    (∀ j ∈ faceRing (CellFaces.new 0 uboxW) 4,
      (vtx (CellFaces.new 0 uboxW) j).x = uboxW.min_x) ∧
    (∀ j, j < (CellFaces.new 0 uboxW).vertices.length →
      j ∉ faceRing (CellFaces.new 0 uboxW) 4 →
      (vtx (CellFaces.new 0 uboxW) j).x = uboxW.max_x) ∧
    (CellFaces.new 0 uboxW).face_neighbors.getD 4 0 = -5 ∧
    (CellFaces.new 0 uboxW).face_neighbors.getD 4 0 ≠ boxSide 0 false := by
  refine ⟨by decide, by decide, ?_, ?_, by decide, by decide⟩
  · intro j hj
    fin_cases hj <;> rfl
  · intro j hj hnot
    have h8 : j < 8 := hj
    interval_cases j <;> first
      | rfl
      | exact absurd (by decide) hnot

/-- C6 (amended): `box_side(axis, is_max) = −1 − (2·axis + is_max)`, and
the 2D seed polygon labels its edges with `box_side` of the matching axis
and side; the 3D seed cell instead assigns the labels axis-reversed — its
face perpendicular to axis `k` carries `box_side(2 − k, is_max)`, i.e.
`z → −1/−2`, `y → −3/−4`, `x → −5/−6`. -/
theorem C6_box_side_labels (b : BoundingBox) (b2 : BoundingBox2) :
    (∀ axis is_max, boxSide axis is_max =
      -1 - (2 * (axis : Int) + (if is_max then 1 else 0))) ∧
    ((Cell2D.new 0 b2).edge_neighbors =
      [boxSide 1 false, boxSide 0 true, boxSide 1 true, boxSide 0 false]) ∧
    ((CellFaces.new 0 b).face_neighbors =
      [boxSide 0 false, boxSide 0 true, boxSide 1 false, boxSide 1 true,
       boxSide 2 false, boxSide 2 true]) ∧
    (∀ j ∈ faceRing (CellFaces.new 0 b) 0, (vtx (CellFaces.new 0 b) j).z = b.min_z) ∧
    (∀ j ∈ faceRing (CellFaces.new 0 b) 1, (vtx (CellFaces.new 0 b) j).z = b.max_z) ∧
    (∀ j ∈ faceRing (CellFaces.new 0 b) 2, (vtx (CellFaces.new 0 b) j).y = b.min_y) ∧
    (∀ j ∈ faceRing (CellFaces.new 0 b) 3, (vtx (CellFaces.new 0 b) j).y = b.max_y) ∧
    (∀ j ∈ faceRing (CellFaces.new 0 b) 4, (vtx (CellFaces.new 0 b) j).x = b.min_x) ∧
    (∀ j ∈ faceRing (CellFaces.new 0 b) 5, (vtx (CellFaces.new 0 b) j).x = b.max_x) := by
  refine ⟨?_, rfl, rfl, ?_, ?_, ?_, ?_, ?_, ?_⟩
  · intro axis is_max
    cases is_max <;> simp [boxSide] <;> ring
  all_goals intro j hj
  all_goals fin_cases hj <;> rfl

/-- Triangle with one vertex inside the tolerance band just past the plane
`x = 1/2`, one vertex far outside and one far inside: the 2D clip computes
a negative interpolation parameter on the first edge. -/
def tri2W : Cell2D :=
  ⟨0, [⟨1 / 2 + 1 / 10000000000, 0⟩, ⟨3 / 2, 0⟩, ⟨0, 1⟩], [100, 101, 102]⟩

/-- C7 (counterexample): the 2D polygon clipper does not clamp `t`; on
`tri2W` its output differs from the clamped variant demanded by the claim
(the unclamped clip places the crossing vertex at `x = 1/2`, the clamped
one at `x = 1/2 + 10⁻¹⁰`). -/
theorem C7_clamp_cx :
    Cell2D.clip tri2W ⟨1 / 2, 0⟩ ⟨1, 0⟩ 7 none ≠
      Cell2D.clipSpec tri2W ⟨1 / 2, 0⟩ ⟨1, 0⟩ 7 none := by
  have hr : List.range 3 = [0, 1, 2] := rfl
  have hx : ((Cell2D.clip tri2W ⟨1 / 2, 0⟩ ⟨1, 0⟩ 7 none).1.vertices.getD 1
        default).x ≠
      ((Cell2D.clipSpec tri2W ⟨1 / 2, 0⟩ ⟨1, 0⟩ 7 none).1.vertices.getD 1
        default).x := by
    norm_num [Cell2D.clip, Cell2D.clipSpec, clip2With, clip2Edge, clipT2,
      ratClamp01, eps, signedDist2, lerp2, updMax2, tri2W, hr]
  intro h
  exact hx (by rw [h])

/-- C7 (amended): the interpolation parameter is clamped to `[0, 1]`
before use in the 3D faces and edges clippers, but the 2D polygon clipper
uses the raw `t = d_a / (d_a − d_b)`, which can leave `[0, 1]` when the
inside endpoint sits within the tolerance band on the far side of the
plane. -/
theorem C7_clamp_status (d_s d_e : ℚ) :
    (0 ≤ clipT d_s d_e ∧ clipT d_s d_e ≤ 1) ∧
    clipT2 (1 / 10000000000) 1 < 0 := by
  constructor
  · unfold clipT ratClamp01
    split_ifs <;> constructor <;> linarith
  · norm_num [clipT2]

/-- Octree holding the single generator 0 at the box center, built by the
octree's own `set_generators`. -/
def octW : Octree :=
  Octree.setGens 8 (Octree.new uboxW 4) [1 / 2, 1 / 2, 1 / 2]

/-- C8 (counterexample): moving generator 0 through the octree's
`update_generator` leaves the index bit-for-bit unchanged — it still
stores the old position and knows nothing of the new one — because the
method body is empty (a `TODO`), not a full rebuild as the claim states. -/
theorem C8_octree_update_cx :
    Octree.updateGenerator octW 0 ⟨1 / 2, 1 / 2, 1 / 2⟩ ⟨3 / 4, 3 / 4, 3 / 4⟩ uboxW
      = octW ∧
    octW.points = [(0, ⟨1 / 2, 1 / 2, 1 / 2⟩)] ∧
    (⟨3 / 4, 3 / 4, 3 / 4⟩ : Vec3) ≠ ⟨1 / 2, 1 / 2, 1 / 2⟩ := by
  refine ⟨rfl, ?_, by norm_num⟩
  have hc : octContains uboxW ⟨1 / 2, 1 / 2, 1 / 2⟩ = true := by
    norm_num [octContains, uboxW]
  unfold octW Octree.setGens
  simp only [List.length_cons, List.length_nil, Octree.octClear, Octree.new,
    Octree.bounds, Octree.capacity]
  rw [show (3 / 3 : ℕ) = 1 from rfl, show List.range 1 = [0] from rfl]
  simp only [List.foldl_cons, List.foldl_nil]
  rw [show (8 : ℕ) = 7 + 1 from rfl]
  simp [Octree.insert, hc, Octree.points, uboxW]
  norm_num [octContains, Octree.points]

/-- C8 (amended): with the octree index, `update_generator` is an
unimplemented no-op (`TODO` in the source), so moving a single generator
does not touch the index at all; the index reflects generator positions
only through `set_generators`, which rebuilds from scratch — its result
depends on the previous tree only through the box and leaf capacity. -/
theorem C8_octree_update_noop (t t1 t2 : Octree) (i : ℕ) (op np : Vec3)
    (b : BoundingBox) (fuel : ℕ) (gens : List ℚ)
    (hb : t1.bounds = t2.bounds) (hc : t1.capacity = t2.capacity) :
    Octree.updateGenerator t i op np b = t ∧
    (Octree.updateGenerator t i op np b).points = t.points ∧
    Octree.setGens fuel t1 gens = Octree.setGens fuel t2 gens := by
  refine ⟨rfl, rfl, ?_⟩
  unfold Octree.setGens Octree.octClear
  rw [hb, hc]

/-- Witness for C8: two distinct octrees over the same box and capacity —
one empty, one already holding a point — rebuild to the same index. -/
theorem C8_octree_update_noop_witness :
    (Octree.new uboxW 4).bounds = (Octree.mk uboxW 4 [(0, ⟨0, 0, 0⟩)] none).bounds ∧
    (Octree.new uboxW 4).capacity = (Octree.mk uboxW 4 [(0, ⟨0, 0, 0⟩)] none).capacity ∧
    Octree.setGens 8 (Octree.new uboxW 4) [1 / 2, 1 / 2, 1 / 2] =
      Octree.setGens 8 (Octree.mk uboxW 4 [(0, ⟨0, 0, 0⟩)] none) [1 / 2, 1 / 2, 1 / 2] := by
  refine ⟨rfl, rfl, ?_⟩
  exact (C8_octree_update_noop (Octree.new uboxW 4) (Octree.new uboxW 4)
    (Octree.mk uboxW 4 [(0, ⟨0, 0, 0⟩)] none) 0 ⟨0, 0, 0⟩ ⟨0, 0, 0⟩ uboxW 8
    [1 / 2, 1 / 2, 1 / 2] rfl rfl).2.2

/-- C10: `set_generator` is a complete no-op — generator buffer, grid bins
and generator-to-bin map all untouched — when the flat offset `3·i + 2` is
out of range of the generator buffer, and likewise when some installed
wall rejects the target position. -/
theorem C10_set_generator_silent_reject (t : Tess) (i : ℕ) (x y z : ℚ) :
    (¬ i * 3 + 2 < t.generators.length → Tess.setGenerator t i x y z = t) ∧
    ((∃ w ∈ t.walls, w.contains x y z = false) → Tess.setGenerator t i x y z = t) := by
  constructor
  · intro h
    unfold Tess.setGenerator
    rw [if_neg h]
  · intro h
    have hall : ¬ (t.walls.all fun w => w.contains x y z) = true := by
      rw [List.all_eq_true]
      intro hc
      obtain ⟨w, hw, hfalse⟩ := h
      have hwc := hc w hw
      rw [hfalse] at hwc
      simp at hwc
    simp only [Tess.setGenerator]
    split_ifs with h1
    · rfl
    · rfl

/-- A wall rejecting everything, used by witnesses. -/
def rejectWall : Wall3 := ⟨-1000, fun _ _ _ => false, fun _ => []⟩

/-- Tessellation state with one generator and an all-rejecting wall, built
as a plain state record for the witnesses. -/
def tessW : Tess :=
  { bounds := ⟨0, 0, 0, 10, 10, 10⟩
    generators := [1, 1, 1]
    cells := []
    walls := [rejectWall]
    grid_res_x := 1, grid_res_y := 1, grid_res_z := 1
    grid_scale_x := 1 / 10, grid_scale_y := 1 / 10, grid_scale_z := 1 / 10
    grid_limit_x := 1, grid_limit_y := 1, grid_limit_z := 1
    grid_bins := [[0]]
    generator_bin_ids := [0]
    bin_search_order := [(0, 0, 0)] }

/-- Witness for C10: on `tessW`, index 5 is out of range and the installed
wall rejects `(2, 2, 2)`; both calls leave the state untouched. -/
theorem C10_set_generator_silent_reject_witness :
    (¬ 5 * 3 + 2 < tessW.generators.length ∧ Tess.setGenerator tessW 5 2 2 2 = tessW) ∧
    ((∃ w ∈ tessW.walls, w.contains 2 2 2 = false) ∧
      Tess.setGenerator tessW 0 2 2 2 = tessW) := by
  have h1 : ¬ 5 * 3 + 2 < tessW.generators.length := by decide
  have h2 : ∃ w ∈ tessW.walls, w.contains 2 2 2 = false :=
    ⟨rejectWall, List.mem_singleton.mpr rfl, rfl⟩
  exact ⟨⟨h1, (C10_set_generator_silent_reject tessW 5 2 2 2).1 h1⟩,
    ⟨h2, (C10_set_generator_silent_reject tessW 0 2 2 2).2 h2⟩⟩

/-! Lemmas about the wall filter of the generator intake. -/

lemma filterGens_length_le (ws : List Wall3) (l : List ℚ) :
    (filterGens ws l).length ≤ l.length := by
  induction l using filterGens.induct ws with
  | case1 x y z rest hcond ih =>
    rw [filterGens, if_pos hcond]
    simpa using ih
  | case2 x y z rest hcond ih =>
    rw [filterGens, if_neg hcond]
    -- a dropped triple only shrinks the list
    calc (filterGens ws rest).length ≤ rest.length := ih
    _ ≤ (x :: y :: z :: rest).length := by simp; omega
  | case3 t ht =>
    match t, ht with
    | [], _ => simp [filterGens]
    | [x], _ => simp [filterGens]
    | [x, y], _ => simp [filterGens]
    | x :: y :: z :: rest, ht => exact absurd rfl (ht x y z rest)

lemma filterGens_eq_self_of_length (ws : List Wall3) (l : List ℚ)
    (h : (filterGens ws l).length = l.length) : filterGens ws l = l := by
  induction l using filterGens.induct ws with
  | case1 x y z rest hcond ih =>
    rw [filterGens, if_pos hcond]
    rw [filterGens, if_pos hcond] at h
    simp only [List.length_cons] at h
    rw [ih (by omega)]
  | case2 x y z rest hcond ih =>
    rw [filterGens, if_neg hcond] at h
    have := filterGens_length_le ws rest
    simp only [List.length_cons] at h
    omega
  | case3 t ht =>
    match t, ht with
    | [], _ => simp [filterGens]
    | [x], _ => simp [filterGens] at h
    | [x, y], _ => simp [filterGens] at h
    | x :: y :: z :: rest, ht => exact absurd rfl (ht x y z rest)

lemma filterGens_idem (ws : List Wall3) (l : List ℚ) :
    filterGens ws (filterGens ws l) = filterGens ws l := by
  induction l using filterGens.induct ws with
  | case1 x y z rest hcond ih =>
    rw [filterGens, if_pos hcond, filterGens, if_pos hcond, ih]
  | case2 x y z rest hcond ih =>
    rw [filterGens, if_neg hcond, ih]
  | case3 t ht =>
    match t, ht with
    | [], _ => simp [filterGens]
    | [x], _ => simp [filterGens]
    | [x, y], _ => simp [filterGens]
    | x :: y :: z :: rest, ht => exact absurd rfl (ht x y z rest)

/-- C4 (counterexample): `set_generators` stores a point even though it
lies outside the domain box (`x = 20 > max_x = 10`, no walls installed) —
insertion filters only through the walls, never against the box. -/
theorem C4_outside_box_kept_cx :
    (Tess.setGenerators (Tess.new ⟨0, 0, 0, 10, 10, 10⟩ 1 1 1)
        [20, 20, 20]).generators = [20, 20, 20] ∧
    (Tess.new ⟨0, 0, 0, 10, 10, 10⟩ 1 1 1).walls = [] ∧
    ¬ ((20 : ℚ) ≤ (Tess.new ⟨0, 0, 0, 10, 10, 10⟩ 1 1 1).bounds.max_x) := by
  refine ⟨rfl, rfl, by norm_num [Tess.new]⟩

/-- C4 (amended): at insertion time a point is rejected exactly when some
installed wall's `contains` rejects it — the domain box is not checked —
and the survivors are stored compactly in input order; `add_wall` applies
the same filter, extended by the new wall, to the existing generators. -/
theorem C4_generator_wall_filter (t : Tess) (gens : List ℚ) (w : Wall3) :
    (Tess.setGenerators t gens).generators = filterGens t.walls gens ∧
    (Tess.addWall t w).generators = filterGens (t.walls ++ [w]) t.generators := by
  constructor
  · rfl
  · simp only [Tess.addWall, Tess.pruneOutsideGenerators]
    split_ifs with h
    · exact filterGens_idem (t.walls ++ [w]) t.generators
    · rw [not_ne_iff] at h
      exact (filterGens_eq_self_of_length (t.walls ++ [w]) t.generators h).symm

/-! Lemmas about the rejection-sampling loop. -/

lemma randLoop_attempts_le (b : BoundingBox) (walls : List Wall3)
    (u : ℕ → ℚ × ℚ × ℚ) (count : ℕ) :
    ∀ fuel found attempts acc,
      (randLoop b walls u count found attempts fuel acc).2 ≤ attempts + fuel := by
  intro fuel
  induction fuel with
  | zero => intro found attempts acc; simp [randLoop]
  | succ fuel ih =>
    intro found attempts acc
    rw [randLoop]
    split_ifs with h1
    · dsimp only
      split_ifs with h2
      · calc (randLoop b walls u count (found + 1) (attempts + 1) fuel
            (acc ++ [attemptPoint b (u attempts)])).2 ≤ (attempts + 1) + fuel := ih ..
        _ = attempts + (fuel + 1) := by omega
      · calc (randLoop b walls u count found (attempts + 1) fuel acc).2
            ≤ (attempts + 1) + fuel := ih ..
        _ = attempts + (fuel + 1) := by omega
    · simp

lemma randLoop_points (b : BoundingBox) (walls : List Wall3)
    (u : ℕ → ℚ × ℚ × ℚ) (count : ℕ) :
    ∀ fuel found attempts acc,
      acc.length = found → found ≤ count →
      (∀ p ∈ acc, (walls.all fun w => w.contains p.x p.y p.z) = true ∧
        ∃ k, p = attemptPoint b (u k)) →
      (randLoop b walls u count found attempts fuel acc).1.length ≤ count ∧
      ∀ p ∈ (randLoop b walls u count found attempts fuel acc).1,
        (walls.all fun w => w.contains p.x p.y p.z) = true ∧
        ∃ k, p = attemptPoint b (u k) := by
  intro fuel
  induction fuel with
  | zero =>
    intro found attempts acc hlen hle hprop
    simp only [randLoop]
    exact ⟨hlen ▸ hle, hprop⟩
  | succ fuel ih =>
    intro found attempts acc hlen hle hprop
    rw [randLoop]
    split_ifs with h1
    · dsimp only
      split_ifs with h2
      · refine ih (found + 1) (attempts + 1) _ (by simp [hlen]) (by omega) ?_
        intro p hp
        rcases List.mem_append.mp hp with hp | hp
        · exact hprop p hp
        · rcases List.mem_singleton.mp hp with rfl
          exact ⟨h2, attempts, rfl⟩
      · exact ih found (attempts + 1) acc hlen hle hprop
    · exact ⟨hlen ▸ hle, hprop⟩

lemma attemptPoint_in_box (b : BoundingBox) (w : ℚ × ℚ × ℚ)
    (hw : 0 ≤ w.1 ∧ w.1 ≤ 1 ∧ 0 ≤ w.2.1 ∧ w.2.1 ≤ 1 ∧ 0 ≤ w.2.2 ∧ w.2.2 ≤ 1)
    (hbx : b.min_x ≤ b.max_x) (hby : b.min_y ≤ b.max_y) (hbz : b.min_z ≤ b.max_z) :
    b.min_x ≤ (attemptPoint b w).x ∧ (attemptPoint b w).x ≤ b.max_x ∧
    b.min_y ≤ (attemptPoint b w).y ∧ (attemptPoint b w).y ≤ b.max_y ∧
    b.min_z ≤ (attemptPoint b w).z ∧ (attemptPoint b w).z ≤ b.max_z := by
  obtain ⟨h1, h2, h3, h4, h5, h6⟩ := hw
  unfold attemptPoint
  refine ⟨?_, ?_, ?_, ?_, ?_, ?_⟩ <;> dsimp <;> nlinarith

lemma filterGens_flattenV3 (ws : List Wall3) :
    ∀ pts : List Vec3,
      (∀ p ∈ pts, (ws.all fun w => w.contains p.x p.y p.z) = true) →
      filterGens ws (flattenV3 pts) = flattenV3 pts := by
  intro pts
  induction pts with
  | nil => intro _; rfl
  | cons p rest ih =>
    intro h
    rw [flattenV3, filterGens, if_pos (h p (List.mem_cons_self p rest)),
      ih (fun q hq => h q (List.mem_cons_of_mem p hq))]

/-- C9: `random_generators(N)` performs at most `1000·N` sampling
attempts; every attempt draws `min + u·(max − min)` per axis, so with unit
draws every candidate lies in the domain box; only points inside all
installed walls are stored, at most `N` of them, and the function is total
— when the budget runs out it simply stores the points found so far
(`set_generators` keeps them all, since they already pass the walls). -/
theorem C9_random_generators_bounded (t : Tess) (count : ℕ) (u : ℕ → ℚ × ℚ × ℚ)
    (hu : ∀ k, 0 ≤ (u k).1 ∧ (u k).1 ≤ 1 ∧ 0 ≤ (u k).2.1 ∧ (u k).2.1 ≤ 1 ∧
      0 ≤ (u k).2.2 ∧ (u k).2.2 ≤ 1)
    (hbx : t.bounds.min_x ≤ t.bounds.max_x)
    (hby : t.bounds.min_y ≤ t.bounds.max_y)
    (hbz : t.bounds.min_z ≤ t.bounds.max_z) :
    (randLoop t.bounds t.walls u count 0 0 (count * 1000) []).2 ≤ 1000 * count ∧
    (randLoop t.bounds t.walls u count 0 0 (count * 1000) []).1.length ≤ count ∧
    (∀ p ∈ (randLoop t.bounds t.walls u count 0 0 (count * 1000) []).1,
      (t.walls.all fun w => w.contains p.x p.y p.z) = true ∧
      t.bounds.min_x ≤ p.x ∧ p.x ≤ t.bounds.max_x ∧
      t.bounds.min_y ≤ p.y ∧ p.y ≤ t.bounds.max_y ∧
      t.bounds.min_z ≤ p.z ∧ p.z ≤ t.bounds.max_z) ∧
    (Tess.randomGenerators t count u).generators =
      flattenV3 (randLoop t.bounds t.walls u count 0 0 (count * 1000) []).1 := by
  have hpts := randLoop_points t.bounds t.walls u count (count * 1000) 0 0 []
    rfl (Nat.zero_le count) (by intro p hp; simp at hp)
  refine ⟨?_, hpts.1, ?_, ?_⟩
  · calc (randLoop t.bounds t.walls u count 0 0 (count * 1000) []).2
        ≤ 0 + count * 1000 := randLoop_attempts_le t.bounds t.walls u count ..
    _ = 1000 * count := by omega
  · intro p hp
    obtain ⟨hpass, k, rfl⟩ := hpts.2 p hp
    have hbox := attemptPoint_in_box t.bounds (u k) (hu k) hbx hby hbz
    exact ⟨hpass, hbox.1, hbox.2.1, hbox.2.2.1, hbox.2.2.2.1, hbox.2.2.2.2.1,
      hbox.2.2.2.2.2⟩
  · show (Tess.setGenerators t _).generators = _
    have := filterGens_flattenV3 t.walls
      (randLoop t.bounds t.walls u count 0 0 (count * 1000) []).1
      (fun p hp => (hpts.2 p hp).1)
    exact this

/-- Witness for C9: a count of 1 with an all-rejecting wall — the loop
exhausts its 1000 attempts and stores nothing, without error. -/
theorem C9_random_generators_bounded_witness :
    (∀ k : ℕ, 0 ≤ ((fun _ : ℕ => ((1 : ℚ) / 2, (1 : ℚ) / 2, (1 : ℚ) / 2)) k).1 ∧
      ((fun _ : ℕ => ((1 : ℚ) / 2, (1 : ℚ) / 2, (1 : ℚ) / 2)) k).1 ≤ 1 ∧
      0 ≤ ((fun _ : ℕ => ((1 : ℚ) / 2, (1 : ℚ) / 2, (1 : ℚ) / 2)) k).2.1 ∧
      ((fun _ : ℕ => ((1 : ℚ) / 2, (1 : ℚ) / 2, (1 : ℚ) / 2)) k).2.1 ≤ 1 ∧
      0 ≤ ((fun _ : ℕ => ((1 : ℚ) / 2, (1 : ℚ) / 2, (1 : ℚ) / 2)) k).2.2 ∧
      ((fun _ : ℕ => ((1 : ℚ) / 2, (1 : ℚ) / 2, (1 : ℚ) / 2)) k).2.2 ≤ 1) ∧
    tessW.bounds.min_x ≤ tessW.bounds.max_x ∧
    (randLoop tessW.bounds tessW.walls
      (fun _ : ℕ => ((1 : ℚ) / 2, (1 : ℚ) / 2, (1 : ℚ) / 2)) 1 0 0 (1 * 1000) []).2
      ≤ 1000 * 1 := by
  have hu : ∀ k : ℕ, 0 ≤ ((fun _ : ℕ => ((1 : ℚ) / 2, (1 : ℚ) / 2, (1 : ℚ) / 2)) k).1 ∧
      ((fun _ : ℕ => ((1 : ℚ) / 2, (1 : ℚ) / 2, (1 : ℚ) / 2)) k).1 ≤ 1 ∧
      0 ≤ ((fun _ : ℕ => ((1 : ℚ) / 2, (1 : ℚ) / 2, (1 : ℚ) / 2)) k).2.1 ∧
      ((fun _ : ℕ => ((1 : ℚ) / 2, (1 : ℚ) / 2, (1 : ℚ) / 2)) k).2.1 ≤ 1 ∧
      0 ≤ ((fun _ : ℕ => ((1 : ℚ) / 2, (1 : ℚ) / 2, (1 : ℚ) / 2)) k).2.2 ∧
      ((fun _ : ℕ => ((1 : ℚ) / 2, (1 : ℚ) / 2, (1 : ℚ) / 2)) k).2.2 ≤ 1 := by
    intro k
    norm_num
  have hbx : tessW.bounds.min_x ≤ tessW.bounds.max_x := by norm_num [tessW]
  have hby : tessW.bounds.min_y ≤ tessW.bounds.max_y := by norm_num [tessW]
  have hbz : tessW.bounds.min_z ≤ tessW.bounds.max_z := by norm_num [tessW]
  exact ⟨hu, hbx,
    (C9_random_generators_bounded tessW 1
      (fun _ : ℕ => ((1 : ℚ) / 2, (1 : ℚ) / 2, (1 : ℚ) / 2)) hu hbx hby hbz).1⟩

/-! Lemmas showing the per-cell kernel preserves the cell id. -/

lemma cfClip_id (c : CellFaces) (q n : Vec3) (ℓ : Int) (g : Option Vec3) :
    (CellFaces.clip c q n ℓ g).1.id = c.id := by
  simp only [CellFaces.clip]
  split_ifs <;> rfl

lemma foldl_cf_id {β : Type} (f : CellFaces → β → CellFaces)
    (hf : ∀ c b, (f c b).id = c.id) :
    ∀ (l : List β) (c : CellFaces), (l.foldl f c).id = c.id := by
  intro l
  induction l with
  | nil => intro c; rfl
  | cons b rest ih => intro c; rw [List.foldl_cons, ih, hf]

lemma wallCuts_id (g : Vec3) (c : CellFaces) (w : Wall3) :
    (wallCuts g c w).id = c.id := by
  unfold wallCuts
  exact foldl_cf_id _
    (fun c (pn : Vec3 × Vec3) => cfClip_id c pn.1 pn.2 w.id none) _ _

lemma foldl_pair_id {β : Type} (f : CellFaces × ℚ → β → CellFaces × ℚ)
    (hf : ∀ acc b, (f acc b).1.id = acc.1.id) :
    ∀ (l : List β) (acc : CellFaces × ℚ), (l.foldl f acc).1.id = acc.1.id := by
  intro l
  induction l with
  | nil => intro acc; rfl
  | cons b rest ih => intro acc; rw [List.foldl_cons, ih, hf]

lemma clipUpdate_id (acc : CellFaces × ℚ) (q n : Vec3) (j : Int) (g : Vec3) :
    (clipUpdate acc q n j g).1.id = acc.1.id :=
  cfClip_id acc.1 q n j (some g)

lemma clipStep_id (i : ℕ) (g : Vec3) (gens : List ℚ) (acc : CellFaces × ℚ) (j : ℕ) :
    (clipStep i g gens acc j).1.id = acc.1.id := by
  simp only [clipStep]
  split_ifs <;> first | rfl | exact clipUpdate_id ..

lemma processBin_id (t : Tess) (i : ℕ) (g : Vec3) (idx : ℕ × ℕ × ℕ)
    (rel cs : ℚ × ℚ × ℚ) (off : Int × Int × Int) (acc : CellFaces × ℚ) :
    (processBin t i g idx rel cs off acc).1.id = acc.1.id := by
  simp only [processBin]
  split_ifs <;>
    first
      | rfl
      | exact foldl_pair_id _ (fun a j => clipStep_id i g t.generators a j) _ acc

lemma neighborLoop_id (pb : (Int × Int × Int) → CellFaces × ℚ → CellFaces × ℚ)
    (mind : (Int × Int × Int) → ℚ)
    (hpb : ∀ off acc, (pb off acc).1.id = acc.1.id) :
    ∀ (l : List (Int × Int × Int)) (acc : CellFaces × ℚ),
      (neighborLoop pb mind l acc).1.id = acc.1.id := by
  intro l
  induction l with
  | nil => intro acc; rfl
  | cons off rest ih =>
    intro acc
    rw [neighborLoop]
    split_ifs
    · rfl
    · rw [ih, hpb]

lemma computeCell_id (t : Tess) (i : ℕ) : (computeCell t i).id = i := by
  unfold computeCell
  refine (neighborLoop_id _ _ ?_ _ _).trans ?_
  · intro off acc
    exact processBin_id ..
  · exact foldl_cf_id _ (fun c w => wallCuts_id _ c w) _ _

/-- C1: `calculate` produces exactly `N = generators.len() / 3` cells, and
the cell at position `i` carries id `i` — the indexed parallel collect is
order preserving, so this holds independently of scheduling, embedded as
the sequential map over generator indices. -/
theorem C1_calculate_cells (t : Tess) :
    (Tess.calculate t).cells.length = t.generators.length / 3 ∧
    ∀ i, i < t.generators.length / 3 →
      ((Tess.calculate t).cells.getD i default).id = i := by
  constructor
  · simp [Tess.calculate]
  · intro i hi
    have h : (Tess.calculate t).cells.getD i default = computeCell t i := by
      simp [Tess.calculate, List.getD_eq_getElem?_getD, List.getElem?_map,
        List.getElem?_range hi]
    rw [h, computeCell_id]

/-- Witness for C1: the one-generator state `tessW` yields one cell at
position 0 with id 0. -/
theorem C1_calculate_cells_witness :
    0 < tessW.generators.length / 3 ∧
    ((Tess.calculate tessW).cells.getD 0 default).id = 0 := by
  refine ⟨by decide, ?_⟩
  exact (C1_calculate_cells tessW).2 0 (by decide)

/-! Lemmas for the shrinking-radius invariant of the faces clip. -/

lemma clamp01_bounds (t : ℚ) : 0 ≤ ratClamp01 t ∧ ratClamp01 t ≤ 1 := by
  unfold ratClamp01
  split_ifs <;> constructor <;> linarith

lemma clipT_bounds (d_s d_e : ℚ) : 0 ≤ clipT d_s d_e ∧ clipT d_s d_e ≤ 1 :=
  clamp01_bounds _

lemma convex_prod (u v t : ℚ) (h0 : 0 ≤ t) (h1 : t ≤ 1) :
    (u + t * (v - u)) * (u + t * (v - u)) ≤ (1 - t) * (u * u) + t * (v * v) := by
  nlinarith [mul_nonneg (mul_nonneg h0 (sub_nonneg.mpr h1)) (sq_nonneg (u - v))]

lemma lerp3_distSq_le (a b g : Vec3) (t : ℚ) (h0 : 0 ≤ t) (h1 : t ≤ 1)
    (r2 : ℚ) (ha : distSq a g ≤ r2) (hb : distSq b g ≤ r2) :
    distSq (lerp3 a b t) g ≤ r2 := by
  have hx := convex_prod (a.x - g.x) (b.x - g.x) t h0 h1
  have hy := convex_prod (a.y - g.y) (b.y - g.y) t h0 h1
  have hz := convex_prod (a.z - g.z) (b.z - g.z) t h0 h1
  unfold distSq lerp3 at *
  dsimp at *
  nlinarith [hx, hy, hz, ha, hb, h0, h1]

lemma updMax_le {g : Vec3} {m r2 : ℚ} (v : Vec3) (hm : m ≤ r2)
    (hv : distSq v g ≤ r2) : updMax (some g) m v ≤ r2 := by
  unfold updMax
  dsimp only
  split_ifs <;> assumption

lemma getD_mem {α : Type} {l : List α} {i : ℕ} (d : α) (h : i < l.length) :
    l.getD i d ∈ l := by
  rw [List.getD_eq_getElem?_getD, List.getElem?_eq_getElem h]
  exact List.getElem_mem h

lemma keptPass_maxd_le (g : Vec3) (r2 : ℚ) :
    ∀ (l : List (Vec3 × ℚ)) (st : FScratch), st.maxd ≤ r2 →
      (∀ p ∈ l, distSq p.1 g ≤ r2) →
      ((keptPass (some g) st l).2).maxd ≤ r2 := by
  intro l
  induction l with
  | nil => intro st hst _; exact hst
  | cons p rest ih =>
    intro st hst hl
    obtain ⟨v, d⟩ := p
    rw [keptPass]
    split_ifs with hd
    · exact ih _ (updMax_le v hst (hl (v, d) (List.mem_cons_self _ _)))
        (fun q hq => hl q (List.mem_cons_of_mem _ hq))
    · exact ih _ hst (fun q hq => hl q (List.mem_cons_of_mem _ hq))

lemma getInter_maxd_le (g : Vec3) (r2 : ℚ) (oldVs : List Vec3) (ds : List ℚ)
    (st : FScratch) (s e : ℕ) (hst : st.maxd ≤ r2)
    (hs : s < oldVs.length) (he : e < oldVs.length)
    (hold : ∀ v ∈ oldVs, distSq v g ≤ r2) :
    (getInter (some g) oldVs ds st s e).1.maxd ≤ r2 := by
  unfold getInter
  cases hfind : st.imap.find? (fun p => p.1 == if s < e then (s, e) else (e, s)) with
  | some p => simpa [hfind] using hst
  | none =>
    simp only [hfind]
    refine updMax_le _ hst ?_
    exact lerp3_distSq_le _ _ g _ (clipT_bounds _ _).1 (clipT_bounds _ _).2 r2
      (hold _ (getD_mem default hs)) (hold _ (getD_mem default he))

lemma processEdge_maxd_le (g : Vec3) (r2 : ℚ) (oldVs : List Vec3) (ds : List ℚ)
    (o2n : List (Option ℕ)) (acc : FScratch × List ℕ) (se : ℕ × ℕ)
    (hst : acc.1.maxd ≤ r2) (hs : se.1 < oldVs.length) (he : se.2 < oldVs.length)
    (hold : ∀ v ∈ oldVs, distSq v g ≤ r2) :
    (processEdge (some g) oldVs ds o2n acc se).1.maxd ≤ r2 := by
  simp only [processEdge]
  split_ifs with h1 h2 h3
  · cases o2n.getD se.2 none <;> exact hst
  · exact getInter_maxd_le g r2 oldVs ds acc.1 se.1 se.2 hst hs he hold
  · cases o2n.getD se.2 none <;>
      exact getInter_maxd_le g r2 oldVs ds acc.1 se.1 se.2 hst hs he hold
  · exact hst

lemma edgeFold_maxd_le (g : Vec3) (r2 : ℚ) (oldVs : List Vec3) (ds : List ℚ)
    (o2n : List (Option ℕ)) (hold : ∀ v ∈ oldVs, distSq v g ≤ r2) :
    ∀ (el : List (ℕ × ℕ)) (acc : FScratch × List ℕ), acc.1.maxd ≤ r2 →
      (∀ p ∈ el, p.1 < oldVs.length ∧ p.2 < oldVs.length) →
      ((el.foldl (processEdge (some g) oldVs ds o2n) acc).1).maxd ≤ r2 := by
  intro el
  induction el with
  | nil => intro acc hst _; exact hst
  | cons se rest ih =>
    intro acc hst hel
    rw [List.foldl_cons]
    refine ih _ ?_ (fun p hp => hel p (List.mem_cons_of_mem _ hp))
    exact processEdge_maxd_le g r2 oldVs ds o2n acc se hst
      (hel se (List.mem_cons_self _ _)).1 (hel se (List.mem_cons_self _ _)).2 hold

lemma cyclicPairs_mem {α : Type} [Inhabited α] (l : List α) (p : α × α)
    (hp : p ∈ cyclicPairs l) : p.1 ∈ l ∧ p.2 ∈ l := by
  cases l with
  | nil => simp [cyclicPairs] at hp
  | cons a rest =>
    simp only [cyclicPairs] at hp
    have hz := List.of_mem_zip hp
    refine ⟨hz.1, ?_⟩
    rcases List.mem_append.mp hz.2 with h | h
    · exact List.mem_cons_of_mem _ h
    · rcases List.mem_singleton.mp h with rfl
      exact List.mem_cons_self _ _

lemma processFace_maxd_le (g : Vec3) (r2 : ℚ) (oldVs : List Vec3) (ds : List ℚ)
    (o2n : List (Option ℕ)) (acc : FAcc) (fn : List ℕ × Int)
    (hst : acc.st.maxd ≤ r2) (hfn : ∀ k ∈ fn.1, k < oldVs.length)
    (hold : ∀ v ∈ oldVs, distSq v g ≤ r2) :
    (processFace (some g) oldVs ds o2n acc fn).st.maxd ≤ r2 := by
  simp only [processFace]
  have hfold := edgeFold_maxd_le g r2 oldVs ds o2n hold (cyclicPairs fn.1)
    (acc.st, []) hst
    (fun p hp => ⟨hfn p.1 (cyclicPairs_mem fn.1 p hp).1,
      hfn p.2 (cyclicPairs_mem fn.1 p hp).2⟩)
  split_ifs <;> exact hfold

lemma facesFold_maxd_le (g : Vec3) (r2 : ℚ) (oldVs : List Vec3) (ds : List ℚ)
    (o2n : List (Option ℕ)) (hold : ∀ v ∈ oldVs, distSq v g ≤ r2) :
    ∀ (fl : List (List ℕ × Int)) (acc : FAcc), acc.st.maxd ≤ r2 →
      (∀ f ∈ fl, ∀ k ∈ f.1, k < oldVs.length) →
      ((fl.foldl (processFace (some g) oldVs ds o2n) acc).st).maxd ≤ r2 := by
  intro fl
  induction fl with
  | nil => intro acc hst _; exact hst
  | cons fn rest ih =>
    intro acc hst hfl
    rw [List.foldl_cons]
    refine ih _ ?_ (fun f hf => hfl f (List.mem_cons_of_mem _ hf))
    exact processFace_maxd_le g r2 oldVs ds o2n acc fn hst
      (hfl fn (List.mem_cons_self _ _)) hold

lemma splitFaces_mem :
    ∀ (cs : List ℕ) (idxs : List ℕ) (f : List ℕ), f ∈ splitFaces cs idxs →
      ∀ k ∈ f, k ∈ idxs := by
  intro cs
  induction cs with
  | nil => intro idxs f hf; simp [splitFaces] at hf
  | cons c rest ih =>
    intro idxs f hf
    rw [splitFaces] at hf
    rcases List.mem_cons.mp hf with rfl | hf
    · exact fun k hk => List.take_subset c idxs hk
    · exact fun k hk => List.drop_subset c idxs (ih (idxs.drop c) f hf k hk)

lemma mainFold_maxd_le (c : CellFaces) (q n : Vec3) (g : Vec3) (r2 : ℚ)
    (hv : ∀ v ∈ c.vertices, distSq v g ≤ r2) (hr : 0 ≤ r2)
    (hwf : ∀ k ∈ c.face_indices, k < c.vertices.length) :
    (((splitFaces c.face_counts c.face_indices).zip c.face_neighbors).foldl
      (processFace (some g) c.vertices (c.vertices.map fun v => signedDist v q n)
        (keptPass (some g) { verts := [], isInter := [], imap := [], maxd := 0 }
          (c.vertices.zip (c.vertices.map fun v => signedDist v q n))).1)
      { st := (keptPass (some g) { verts := [], isInter := [], imap := [], maxd := 0 }
          (c.vertices.zip (c.vertices.map fun v => signedDist v q n))).2,
        fcounts := [], findices := [], fneighbors := [], lids := [] }).st.maxd ≤ r2 := by
  refine facesFold_maxd_le g r2 c.vertices _ _ hv _ _ ?_ ?_
  · refine keptPass_maxd_le g r2 _ _ hr ?_
    intro p hp
    exact hv p.1 (List.of_mem_zip hp).1
  · intro f hf k hk
    exact hwf k (splitFaces_mem c.face_counts c.face_indices f.1
      (List.of_mem_zip hf).1 k hk)

lemma cfClip_radius_le (c : CellFaces) (q n : Vec3) (j : Int) (g : Vec3) (r2 : ℚ)
    (hv : ∀ v ∈ c.vertices, distSq v g ≤ r2) (hr : 0 ≤ r2)
    (hwf : ∀ k ∈ c.face_indices, k < c.vertices.length) :
    (CellFaces.clip c q n j (some g)).2.2 ≤ r2 := by
  simp only [CellFaces.clip]
  split_ifs with h1 h2 h3
  · exact hr
  · exact hr
  · exact mainFold_maxd_le c q n g r2 hv hr hwf
  · exact mainFold_maxd_le c q n g r2 hv hr hwf

lemma updFold_snoc (g : Vec3) (l : List Vec3) (v : Vec3) :
    ((l ++ [v]).foldl (fun m w => let d2 := distSq w g; if d2 > m then d2 else m) 0)
      = updMax (some g)
        (l.foldl (fun m w => let d2 := distSq w g; if d2 > m then d2 else m) 0) v := by
  rw [List.foldl_append]
  rfl

lemma keptPass_mrs (g : Vec3) :
    ∀ (l : List (Vec3 × ℚ)) (st : FScratch),
      st.maxd = st.verts.foldl
        (fun m w => let d2 := distSq w g; if d2 > m then d2 else m) 0 →
      (keptPass (some g) st l).2.maxd =
        ((keptPass (some g) st l).2.verts).foldl
          (fun m w => let d2 := distSq w g; if d2 > m then d2 else m) 0 := by
  intro l
  induction l with
  | nil => intro st h; exact h
  | cons p rest ih =>
    intro st h
    obtain ⟨v, d⟩ := p
    rw [keptPass]
    split_ifs with hd
    · refine ih _ ?_
      show updMax (some g) st.maxd v = _
      rw [updFold_snoc, ← h]
    · exact ih _ h

lemma getInter_mrs (g : Vec3) (oldVs : List Vec3) (ds : List ℚ) (st : FScratch)
    (s e : ℕ)
    (h : st.maxd = st.verts.foldl
      (fun m w => let d2 := distSq w g; if d2 > m then d2 else m) 0) :
    (getInter (some g) oldVs ds st s e).1.maxd =
      ((getInter (some g) oldVs ds st s e).1.verts).foldl
        (fun m w => let d2 := distSq w g; if d2 > m then d2 else m) 0 := by
  unfold getInter
  cases hf : st.imap.find? (fun p => p.1 == if s < e then (s, e) else (e, s)) with
  | some p => simpa [hf] using h
  | none =>
    simp only [hf]
    show updMax (some g) st.maxd _ = _
    rw [updFold_snoc, ← h]

lemma processEdge_mrs (g : Vec3) (oldVs : List Vec3) (ds : List ℚ)
    (o2n : List (Option ℕ)) (acc : FScratch × List ℕ) (se : ℕ × ℕ)
    (h : acc.1.maxd = acc.1.verts.foldl
      (fun m w => let d2 := distSq w g; if d2 > m then d2 else m) 0) :
    (processEdge (some g) oldVs ds o2n acc se).1.maxd =
      ((processEdge (some g) oldVs ds o2n acc se).1.verts).foldl
        (fun m w => let d2 := distSq w g; if d2 > m then d2 else m) 0 := by
  simp only [processEdge]
  split_ifs with h1 h2 h3
  · cases o2n.getD se.2 none <;> exact h
  · exact getInter_mrs g oldVs ds acc.1 se.1 se.2 h
  · cases o2n.getD se.2 none <;> exact getInter_mrs g oldVs ds acc.1 se.1 se.2 h
  · exact h

lemma edgeFold_mrs (g : Vec3) (oldVs : List Vec3) (ds : List ℚ)
    (o2n : List (Option ℕ)) :
    ∀ (el : List (ℕ × ℕ)) (acc : FScratch × List ℕ),
      acc.1.maxd = acc.1.verts.foldl
        (fun m w => let d2 := distSq w g; if d2 > m then d2 else m) 0 →
      ((el.foldl (processEdge (some g) oldVs ds o2n) acc).1).maxd =
        ((el.foldl (processEdge (some g) oldVs ds o2n) acc).1.verts).foldl
          (fun m w => let d2 := distSq w g; if d2 > m then d2 else m) 0 := by
  intro el
  induction el with
  | nil => intro acc h; exact h
  | cons se rest ih =>
    intro acc h
    rw [List.foldl_cons]
    exact ih _ (processEdge_mrs g oldVs ds o2n acc se h)

lemma processFace_mrs (g : Vec3) (oldVs : List Vec3) (ds : List ℚ)
    (o2n : List (Option ℕ)) (acc : FAcc) (fn : List ℕ × Int)
    (h : acc.st.maxd = acc.st.verts.foldl
      (fun m w => let d2 := distSq w g; if d2 > m then d2 else m) 0) :
    (processFace (some g) oldVs ds o2n acc fn).st.maxd =
      ((processFace (some g) oldVs ds o2n acc fn).st.verts).foldl
        (fun m w => let d2 := distSq w g; if d2 > m then d2 else m) 0 := by
  simp only [processFace]
  have hfold := edgeFold_mrs g oldVs ds o2n (cyclicPairs fn.1) (acc.st, []) h
  split_ifs <;> exact hfold

lemma facesFold_mrs (g : Vec3) (oldVs : List Vec3) (ds : List ℚ)
    (o2n : List (Option ℕ)) :
    ∀ (fl : List (List ℕ × Int)) (acc : FAcc),
      acc.st.maxd = acc.st.verts.foldl
        (fun m w => let d2 := distSq w g; if d2 > m then d2 else m) 0 →
      ((fl.foldl (processFace (some g) oldVs ds o2n) acc).st).maxd =
        ((fl.foldl (processFace (some g) oldVs ds o2n) acc).st.verts).foldl
          (fun m w => let d2 := distSq w g; if d2 > m then d2 else m) 0 := by
  intro fl
  induction fl with
  | nil => intro acc h; exact h
  | cons fn rest ih =>
    intro acc h
    rw [List.foldl_cons]
    exact ih _ (processFace_mrs g oldVs ds o2n acc fn h)

lemma mainFold_mrs (c : CellFaces) (q n : Vec3) (g : Vec3) :
    (((splitFaces c.face_counts c.face_indices).zip c.face_neighbors).foldl
      (processFace (some g) c.vertices (c.vertices.map fun v => signedDist v q n)
        (keptPass (some g) { verts := [], isInter := [], imap := [], maxd := 0 }
          (c.vertices.zip (c.vertices.map fun v => signedDist v q n))).1)
      { st := (keptPass (some g) { verts := [], isInter := [], imap := [], maxd := 0 }
          (c.vertices.zip (c.vertices.map fun v => signedDist v q n))).2,
        fcounts := [], findices := [], fneighbors := [], lids := [] }).st.maxd =
    ((((splitFaces c.face_counts c.face_indices).zip c.face_neighbors).foldl
      (processFace (some g) c.vertices (c.vertices.map fun v => signedDist v q n)
        (keptPass (some g) { verts := [], isInter := [], imap := [], maxd := 0 }
          (c.vertices.zip (c.vertices.map fun v => signedDist v q n))).1)
      { st := (keptPass (some g) { verts := [], isInter := [], imap := [], maxd := 0 }
          (c.vertices.zip (c.vertices.map fun v => signedDist v q n))).2,
        fcounts := [], findices := [], fneighbors := [], lids := [] }).st.verts).foldl
      (fun m w => let d2 := distSq w g; if d2 > m then d2 else m) 0 := by
  refine facesFold_mrs g c.vertices _ _ _ _ ?_
  exact keptPass_mrs g _ _ rfl

lemma cfClip_radius_eq (c : CellFaces) (q n : Vec3) (j : Int) (g : Vec3)
    (hmod : (CellFaces.clip c q n j (some g)).2.1 = true) :
    (CellFaces.clip c q n j (some g)).2.2 =
      CellFaces.maxRadiusSq (CellFaces.clip c q n j (some g)).1 g := by
  simp only [CellFaces.clip] at hmod ⊢
  split_ifs with h1 h2 h3
  · rw [if_pos h1] at hmod
    simp at hmod
  · rfl
  · exact mainFold_mrs c q n g
  · exact mainFold_mrs c q n g

/-- C3: the shrinking-sphere discipline of the neighbor loop — when the
running `r²` bounds the squared distance from the generator to every
current cell vertex (the driver's invariant), a bisector clip that reports
the cell modified returns a new max squared radius at most `r²` (every
surviving vertex is an old vertex and every intersection vertex is a
clamped convex combination of two old vertices), the driver leaves
`r²` unchanged when the clip is a no-op, and the returned radius is
exactly the recomputed max squared distance from the generator over the
vertices of the clipped cell. -/
theorem C3_clip_radius_monotone (c : CellFaces) (q n : Vec3) (j : Int)
    (g : Vec3) (r2 : ℚ)
    (hv : ∀ v ∈ c.vertices, distSq v g ≤ r2) (hr : 0 ≤ r2)
    (hwf : ∀ k ∈ c.face_indices, k < c.vertices.length) :
    ((CellFaces.clip c q n j (some g)).2.1 = true →
      (CellFaces.clip c q n j (some g)).2.2 ≤ r2) ∧
    (clipUpdate (c, r2) q n j g).2 ≤ r2 ∧
    ((CellFaces.clip c q n j (some g)).2.1 = false →
      (clipUpdate (c, r2) q n j g).2 = r2) ∧
    ((CellFaces.clip c q n j (some g)).2.1 = true →
      (CellFaces.clip c q n j (some g)).2.2 =
        CellFaces.maxRadiusSq (CellFaces.clip c q n j (some g)).1 g) := by
  have hrad := cfClip_radius_le c q n j g r2 hv hr hwf
  refine ⟨fun _ => hrad, ?_, fun hmod => ?_, fun hmod => cfClip_radius_eq c q n j g hmod⟩
  · unfold clipUpdate
    dsimp only
    split_ifs with h
    · exact hrad
    · exact le_refl r2
  · unfold clipUpdate
    dsimp only
    simp [hmod]

/-- Witness for C3: the unit-box seed cell around its center with the
exact initial radius `r² = 3/4`, clipped by the bisector plane through the
center. -/
theorem C3_clip_radius_monotone_witness :
    (∀ v ∈ (CellFaces.new 0 uboxW).vertices,
      distSq v ⟨1 / 2, 1 / 2, 1 / 2⟩ ≤ 3 / 4) ∧
    (0 : ℚ) ≤ 3 / 4 ∧
    (∀ k ∈ (CellFaces.new 0 uboxW).face_indices,
      k < (CellFaces.new 0 uboxW).vertices.length) ∧
    (clipUpdate (CellFaces.new 0 uboxW, 3 / 4) ⟨1 / 2, 1 / 2, 1 / 2⟩ ⟨1, 0, 0⟩ 1
      ⟨1 / 2, 1 / 2, 1 / 2⟩).2 ≤ 3 / 4 := by
  have hv : ∀ v ∈ (CellFaces.new 0 uboxW).vertices,
      distSq v ⟨1 / 2, 1 / 2, 1 / 2⟩ ≤ 3 / 4 := by
    intro v hv
    fin_cases hv <;> norm_num [distSq, uboxW]
  have hr : (0 : ℚ) ≤ 3 / 4 := by norm_num
  have hwf : ∀ k ∈ (CellFaces.new 0 uboxW).face_indices,
      k < (CellFaces.new 0 uboxW).vertices.length := by decide
  exact ⟨hv, hr, hwf,
    (C3_clip_radius_monotone (CellFaces.new 0 uboxW) ⟨1 / 2, 1 / 2, 1 / 2⟩
      ⟨1, 0, 0⟩ 1 ⟨1 / 2, 1 / 2, 1 / 2⟩ (3 / 4) hv hr hwf).2.1⟩
